import Mathlib

/-!
# The scheduling core of `satan` (src/satan.go)

A shallow embedding of the master coordinator `Satan`: its registry, the shared
task queue, the two layers of shutdown signals, the latency collectors and the
worker loop.  Go values that live behind a pointer or a channel are kept in an
explicit heap (`World`); every method takes the heap and gives back the heap it
leaves, together with the effects it performed (`World.trace`).  A Go panic is
an explicit `Outcome.panicked`.
-/

namespace satan

/-! ## Data model -/

/-- Identity of a concrete daemon (a Go interface value holding a pointer). -/
abbrev DaemonRef := Nat
/-- Identity of a `chan struct{}`. -/
abbrev SignalRef := Nat
/-- Identity of a `chan *task`. -/
abbrev QueueRef := Nat
/-- Identity of a `*statistics`. -/
abbrev StatsRef := Nat
/-- SubscribeFunc is a function that is used by daemons to subscribe to messages;
only the identity of the function value matters here. -/
abbrev SubscribeFunc := Nat
/-- Publisher is the interface that wraps message publishers; only the identity
of the value matters here. -/
abbrev Publisher := Nat

/-- The run-time panics the core can raise or meet. -/
inductive Panic where
  | closeOfClosedChannel
  | closeOfNilChannel
  | nilDereference
  | negativeWaitGroupCounter
  | actorFailure (v : Nat)
  deriving DecidableEq, Repr

/-- Actor is a function that could be executed by daemon workers.  The body is
outside the core: a call either returns or panics with a value. -/
structure Actor where
  id : Nat
  failure : Option Nat
  deriving DecidableEq, Repr

/-- The queued unit of work; `createdAt` is a wall-clock instant in nanoseconds
since the Unix epoch. -/
structure task where
  daemon : DaemonRef
  actor : Actor
  createdAt : Int
  system : Bool
  deriving DecidableEq, Repr

/-- Modelled from the spec: the statistics collector (its file is not part of
src/): a growable ordered sequence of duration samples. -/
structure statistics where
  samples : List Int
  deriving DecidableEq, Repr

/-- Modelled from the spec: the aggregate report a collector computes from its
samples without changing them (count, min, max, sum). -/
structure Snapshot where
  count : Nat
  min : Option Int
  max : Option Int
  sum : Int
  deriving DecidableEq, Repr

/-- Modelled from the spec: the shared base state of every daemon (daemon.go is
not part of src/); the six fields AddDaemon assigns. -/
structure BaseDaemon where
  self : Option DaemonRef
  subscribeFunc : Option SubscribeFunc
  publisher : Option Publisher
  queue : Option QueueRef
  shutdown : Option SignalRef
  stats : Option StatsRef
  deriving DecidableEq, Repr

/-- Satan is the master daemon.  The field `wg` is the counter of the
sync.WaitGroup: it is never negative, a call that would take it below zero
panics instead. -/
structure Satan where
  SubscribeFunc : Option SubscribeFunc
  Publisher : Option Publisher
  daemons : List DaemonRef
  queue : Option QueueRef
  shutdown : Option SignalRef
  wg : Nat
  latency : Option StatsRef
  deriving DecidableEq, Repr

/-- State of a `chan *task`: whether it was closed, and the tasks offered by
the senders blocked on it, oldest first (the channel is unbuffered). -/
structure QueueState where
  closed : Bool
  sendq : List task
  deriving DecidableEq, Repr

/-- The observable effects of the core, in the order they are performed. -/
inductive Effect where
  | closeSignal (c : SignalRef)
  | closeQueue (q : QueueRef)
  | goStartup (d : DaemonRef)
  | goWorker (i : Nat)
  | callShutdown (d : DaemonRef)
  | logDaemonStats (d : DaemonRef) (report : Snapshot)
  | wgWait
  | logLatency (report : Snapshot)
  | logWorkerStart (n : Nat)
  | logWorkerStop (n : Nat)
  | addSample (r : StatsRef) (sample : Int)
  | callActor (a : Actor)
  | logRecovered (d : DaemonRef) (p : Panic)
  deriving DecidableEq, Repr

/-- The heap and the environment: allocated signals (closed flag), allocated
queues, allocated collectors, the base state of every daemon, the successive
readings of the wall clock, and the effects performed so far. -/
structure World where
  signals : List Bool
  queues : List QueueState
  stats : List statistics
  bases : DaemonRef → BaseDaemon
  clock : Nat → Int
  tick : Nat
  trace : List Effect

/-- Result of running a piece of code: normal return, or a panic that is still
propagating, each with the heap reached. -/
inductive Outcome where
  | returned (w : World)
  | panicked (p : Panic) (w : World)

/-- Sequencing: the continuation runs only after a normal return. -/
def Outcome.andThen (o : Outcome) (f : World → Outcome) : Outcome :=
  match o with
  | .returned w => f w
  | .panicked p w => .panicked p w

/-- The heap an outcome ends in. -/
def Outcome.world : Outcome → World
  | .returned w => w
  | .panicked _ w => w

/-- Whether the outcome is a normal return. -/
def Outcome.isReturned : Outcome → Bool
  | .returned _ => true
  | .panicked _ _ => false

/-- Record one effect. -/
def World.emit (w : World) (e : Effect) : World :=
  { w with trace := w.trace ++ [e] }

/-! ## Go primitives -/

/-- The builtin `make(chan struct{})`: a fresh, open signal. -/
def makeSignal (w : World) : SignalRef × World :=
  (w.signals.length, { w with signals := w.signals ++ [false] })

/-- The builtin `make(chan *task)`: a fresh, open, unbuffered queue. -/
def makeQueue (w : World) : QueueRef × World :=
  (w.queues.length, { w with queues := w.queues ++ [⟨false, []⟩] })

/-- The builtin `close` on a `chan struct{}`: panics on a nil channel and on a
channel that is already closed. -/
def closeSignal (c : Option SignalRef) (w : World) : Outcome :=
  match c with
  | none => .panicked .closeOfNilChannel w
  | some c =>
    match w.signals[c]? with
    | none => .panicked .closeOfNilChannel w
    | some true => .panicked .closeOfClosedChannel w
    | some false =>
      .returned { w.emit (.closeSignal c) with signals := w.signals.set c true }

/-- The builtin `close` on a `chan *task`; the senders still blocked on the
channel are woken up and their tasks are lost. -/
def closeQueue (q : Option QueueRef) (w : World) : Outcome :=
  match q with
  | none => .panicked .closeOfNilChannel w
  | some q =>
    match w.queues[q]? with
    | none => .panicked .closeOfNilChannel w
    | some ⟨true, _⟩ => .panicked .closeOfClosedChannel w
    | some ⟨false, _⟩ =>
      .returned { w.emit (.closeQueue q) with queues := w.queues.set q ⟨true, []⟩ }

/-- The 64-bit two's complement value of an integer (Go int64 arithmetic). -/
def wrapInt64 (x : Int) : Int :=
  (x + 2 ^ 63) % 2 ^ 64 - 2 ^ 63

/-- The method `time.Time.UnixNano`: nanoseconds since the epoch as an int64. -/
def UnixNano (t : Int) : Int := wrapInt64 t

/-- The call `time.Now()`: the next reading of the wall clock. -/
def timeNow (w : World) : Int × World :=
  (w.clock w.tick, { w with tick := w.tick + 1 })

/-! ## The statistics collector -/

/-- Modelled from the spec: newStatistics allocates a collector with no
samples. -/
def newStatistics (w : World) : StatsRef × World :=
  (w.stats.length, { w with stats := w.stats ++ [⟨[]⟩] })

/-- Modelled from the spec: `add(duration)` appends one sample; on a nil
collector the receiver is dereferenced and the call panics. -/
def statsAdd (r : Option StatsRef) (sample : Int) (w : World) : Outcome :=
  match r with
  | none => .panicked .nilDereference w
  | some r =>
    match w.stats[r]? with
    | none => .panicked .nilDereference w
    | some st =>
      .returned { w.emit (.addSample r sample) with
        stats := w.stats.set r ⟨st.samples ++ [sample]⟩ }

/-- Modelled from the spec: the aggregate of a sample sequence. -/
def report (xs : List Int) : Snapshot :=
  { count := xs.length, min := xs.min?, max := xs.max?, sum := xs.sum }

/-- Modelled from the spec: `snapshot()` reads the samples recorded so far and
leaves them as they are; none on a nil collector. -/
def snapshot (r : Option StatsRef) (w : World) : Option Snapshot :=
  match r with
  | none => none
  | some r => (w.stats[r]?).map fun st => report st.samples

/-- The samples currently held by a collector (empty for a nil collector). -/
def samplesOf (w : World) (r : Option StatsRef) : List Int :=
  match r with
  | none => []
  | some r => ((w.stats[r]?).map fun st => st.samples).getD []

/-! ## The coordinator -/

/-- The constant defaultNumWorkers. -/
def defaultNumWorkers : Nat := 10

/-- Summon creates a new instance of Satan. -/
def Summon (w : World) : Satan × World :=
  let (q, w1) := makeQueue w
  let (l, w2) := newStatistics w1
  let (c, w3) := makeSignal w2
  ({ SubscribeFunc := none, Publisher := none, daemons := [],
     queue := some q, shutdown := some c, wg := 0, latency := some l }, w3)

/-- Assignment through the pointer `d.base()`. -/
def World.setBase (w : World) (d : DaemonRef) (b : BaseDaemon) : World :=
  { w with bases := fun k => if k = d then b else w.bases k }

/-- AddDaemon adds a new daemon: the six assignments through `d.base()`, then
`go d.Startup()`, then the append to the registry. -/
def Satan.AddDaemon (s : Satan) (d : DaemonRef) (w : World) : Satan × World :=
  let (c, w1) := makeSignal w
  let (r, w2) := newStatistics w1
  let w3 := w2.setBase d
    { self := some d, subscribeFunc := s.SubscribeFunc, publisher := s.Publisher,
      queue := s.queue, shutdown := some c, stats := some r }
  let w4 := w3.emit (.goStartup d)
  ({ s with daemons := s.daemons ++ [d] }, w4)

/-- Register a sequence of daemons, one AddDaemon call each, in order. -/
def AddDaemons : List DaemonRef → Satan → World → Satan × World
  | [], s, w => (s, w)
  | d :: ds, s, w => let (s1, w1) := s.AddDaemon d w; AddDaemons ds s1 w1

/-- The loop of StartDaemons: `for i := 0; i < defaultNumWorkers; i++`, each
round starting one goroutine that runs worker `i`. -/
def startLoop : Nat → Nat → World → World
  | 0, _, w => w
  | fuel + 1, i, w =>
    if i < defaultNumWorkers then startLoop fuel (i + 1) (w.emit (.goWorker i)) else w

/-- StartDaemons starts all registered daemons. -/
def Satan.StartDaemons (s : Satan) (w : World) : Satan × World :=
  ({ s with wg := s.wg + defaultNumWorkers }, startLoop defaultNumWorkers 0 w)

/-- One round of the loop of StopDaemons: `close(d.base().shutdown)`, then
`d.Shutdown()`, then the log line with the snapshot of `d.base().stats`.  The
hook is code of the concrete daemon: it is recorded as an effect, is taken to
return, and cannot reach the unexported state kept in the heap. -/
def stopDaemon (d : DaemonRef) (w : World) : Outcome :=
  (closeSignal (w.bases d).shutdown w).andThen fun w1 =>
    let w2 := w1.emit (.callShutdown d)
    match snapshot (w2.bases d).stats w2 with
    | none => .panicked .nilDereference w2
    | some rep => .returned (w2.emit (.logDaemonStats d rep))

/-- The loop of StopDaemons: `for _, d := range s.daemons`. -/
def stopLoop : List DaemonRef → World → Outcome
  | [], w => .returned w
  | d :: ds, w => (stopDaemon d w).andThen (stopLoop ds)

/-- The statements of StopDaemons after its loop: `close(s.shutdown)`,
`s.wg.Wait()`, `close(s.queue)` and the log line with the latency snapshot.
The wait is recorded as an effect; what the workers do meanwhile is the worker
loop below. -/
def Satan.stopSystem (s : Satan) (w1 : World) : Outcome :=
  (closeSignal s.shutdown w1).andThen fun w2 =>
  let w3 := w2.emit .wgWait
  (closeQueue s.queue w3).andThen fun w4 =>
  match snapshot s.latency w4 with
  | none => .panicked .nilDereference w4
  | some rep => .returned (w4.emit (.logLatency rep))

/-- StopDaemons stops all running daemons. -/
def Satan.StopDaemons (s : Satan) (w : World) : Outcome :=
  (stopLoop s.daemons w).andThen s.stopSystem

/-! ## The worker loop -/

/-- Modelled from the spec: handlePanic, the guard processTask defers on the
owning daemon (daemon.go is not part of src/): a panic in flight is caught,
logged with the daemon's identity and swallowed. -/
def handlePanic (d : DaemonRef) (pending : Option Panic) (w : World) :
    Option Panic × World :=
  match pending with
  | none => (none, w)
  | some p => (none, w.emit (.logRecovered d p))

/-- A deferred call runs when the body is left, on return and on panic alike;
the panic goes on propagating unless the deferred call recovered it. -/
def runDeferred (o : Outcome) (h : Option Panic → World → Option Panic × World) :
    Outcome :=
  let pending := match o with
    | .returned _ => none
    | .panicked p _ => some p
  match h pending o.world with
  | (none, w) => .returned w
  | (some p, w) => .panicked p w

/-- The call `t.actor()`: recorded as an effect; the actor returns or panics as
its `failure` field says and cannot reach the unexported state kept in the
heap. -/
def callActor (a : Actor) (w : World) : Outcome :=
  let w1 := w.emit (.callActor a)
  match a.failure with
  | none => .returned w1
  | some v => .panicked (.actorFailure v) w1

/-- The statements of processTask after the defer. -/
def processTaskBody (t : task) (w : World) : Outcome :=
  let (start, w1) := timeNow w
  (callActor t.actor w1).andThen fun w2 =>
  let (stop, w3) := timeNow w2
  let dur := wrapInt64 (UnixNano stop - UnixNano start)
  statsAdd (w3.bases t.daemon).stats dur w3

/-- The method processTask: `defer t.daemon.base().handlePanic()` and then the
body. -/
def Satan.processTask (_s : Satan) (t : task) (w : World) : Outcome :=
  runDeferred (processTaskBody t w) (handlePanic t.daemon)

/-- The branch `case t := <-s.queue` of runWorker, for a task received. -/
def Satan.taskBranch (s : Satan) (t : task) (w : World) : Outcome :=
  let (now, w1) := timeNow w
  let dur := wrapInt64 (UnixNano now - UnixNano t.createdAt)
  (statsAdd s.latency dur w1).andThen fun w2 => s.processTask t w2

/-- A receive inside a select with a default branch: none when the receive
cannot proceed (nil channel, or open and no sender waiting); otherwise the value
received, which is the oldest waiting task, or nil from a closed channel. -/
def tryRecv (q : Option QueueRef) (w : World) : Option (Option task × World) :=
  match q with
  | none => none
  | some q =>
    match w.queues[q]? with
    | none => none
    | some ⟨closed, t :: rest⟩ =>
      some (some t, { w with queues := w.queues.set q ⟨closed, rest⟩ })
    | some ⟨true, []⟩ => some (none, w)
    | some ⟨false, []⟩ => none

/-- Whether a receive from the signal can proceed: only once it is closed. -/
def signalFired (c : Option SignalRef) (w : World) : Bool :=
  match c with
  | none => false
  | some c => w.signals[c]? == some true

/-- What one pass through the body of the `for` loop of runWorker does. -/
inductive IterResult where
  | again (w : World)
  | exit (w : World)
  | crash (p : Panic) (w : World)

/-- One pass through the body of the `for` loop of runWorker: the outer select
receives from the queue when that can proceed (a nil task, received from a
closed queue, makes `t.createdAt` panic); its default branch is the inner
select, which returns when the system signal is closed and otherwise does
nothing. -/
def Satan.workerIter (s : Satan) (w : World) : IterResult :=
  match tryRecv s.queue w with
  | some (some t, w1) =>
    match s.taskBranch t w1 with
    | .returned w2 => .again w2
    | .panicked p w2 => .crash p w2
  | some (none, w1) => .crash .nilDereference (timeNow w1).2
  | none => if signalFired s.shutdown w then .exit w else .again w

/-- The first `n` passes of the `for` loop of runWorker (fewer when the loop is
left earlier). -/
def workerRounds : Nat → Satan → World → IterResult
  | 0, _, w => .again w
  | n + 1, s, w =>
    match s.workerIter w with
    | .again w1 => workerRounds n s w1
    | .exit w1 => .exit w1
    | .crash p w1 => .crash p w1

/-- The `for` loop of runWorker, run for at most `fuel` passes; none when the
loop is still going after that many. -/
def workerLoop (fuel : Nat) (s : Satan) (w : World) : Option Outcome :=
  match workerRounds fuel s w with
  | .again _ => none
  | .exit w1 => some (.returned w1)
  | .crash p w1 => some (.panicked p w1)

/-- The method runWorker; the deferred log line runs however the loop is left. -/
def Satan.runWorker (fuel : Nat) (s : Satan) (i : Nat) (w : World) : Option Outcome :=
  (workerLoop fuel s (w.emit (.logWorkerStart (i + 1)))).map fun o =>
    match o with
    | .returned w1 => .returned (w1.emit (.logWorkerStop (i + 1)))
    | .panicked p w1 => .panicked p (w1.emit (.logWorkerStop (i + 1)))

/-- The call `s.wg.Done()`: it lowers the counter by one, and panics when the
counter is already zero (negative WaitGroup counter). -/
def Satan.wgDone (s : Satan) (w : World) : Satan × Outcome :=
  if s.wg = 0 then (s, .panicked .negativeWaitGroupCounter w)
  else ({ s with wg := s.wg - 1 }, .returned w)

/-- The goroutine StartDaemons starts for worker `i` (the effect
`Effect.goWorker i`): `s.runWorker(i)` and then `s.wg.Done()`. -/
def Satan.workerGoroutine (fuel : Nat) (s : Satan) (i : Nat) (w : World) :
    Option (Satan × Outcome) :=
  (s.runWorker fuel i w).map fun o =>
    match o with
    | .returned w1 => s.wgDone w1
    | .panicked p w1 => (s, .panicked p w1)

/-- The goroutines of the workers with the given indices, run to their end one
after the other; none when a loop is still going after `fuel` passes, and a
panic ends the run. -/
def runWorkers (fuel : Nat) : List Nat → Satan → World → Option (Satan × Outcome)
  | [], s, w => some (s, .returned w)
  | i :: rest, s, w =>
    match s.workerGoroutine fuel i w with
    | none => none
    | some (s1, .returned w1) => runWorkers fuel rest s1 w1
    | some (s1, .panicked p w1) => some (s1, .panicked p w1)

/-! ## Observations on heaps and traces -/

/-- The panic an outcome carries, if any. -/
def Outcome.panic? : Outcome → Option Panic
  | .returned _ => none
  | .panicked p _ => some p

/-- The signal is allocated and has not been closed. -/
def signalOpen (w : World) (c : Option SignalRef) : Bool :=
  match c with
  | none => false
  | some c => w.signals[c]? == some false

/-- The signal is allocated and has been closed. -/
def signalClosed (w : World) (c : Option SignalRef) : Bool :=
  match c with
  | none => false
  | some c => w.signals[c]? == some true

/-- The queue is allocated and has not been closed. -/
def queueOpen (w : World) (q : Option QueueRef) : Bool :=
  match q with
  | none => false
  | some q => ((w.queues[q]?).map fun st => !st.closed).getD false

/-- The queue is allocated and has been closed. -/
def queueClosed (w : World) (q : Option QueueRef) : Bool :=
  match q with
  | none => false
  | some q => ((w.queues[q]?).map fun st => st.closed).getD false

/-- The collector is allocated (the pointer is not nil). -/
def collectorAllocated (w : World) (r : Option StatsRef) : Bool :=
  match r with
  | none => false
  | some r => decide (r < w.stats.length)

/-- The effects performed after the first `n` ones. -/
def performedSince (n : Nat) (w : World) : List Effect := w.trace.drop n

/-- The daemons whose Shutdown hook was invoked, in the order of the calls. -/
def shutdownCalls : List Effect → List DaemonRef
  | [] => []
  | .callShutdown d :: es => d :: shutdownCalls es
  | _ :: es => shutdownCalls es

/-- The actors invoked, in the order of the calls. -/
def actorCalls : List Effect → List Actor
  | [] => []
  | .callActor a :: es => a :: actorCalls es
  | _ :: es => actorCalls es

/-- How often `close` was performed on a signal. -/
def closeCount (c : Option SignalRef) (es : List Effect) : Nat :=
  match c with
  | none => 0
  | some c => es.count (.closeSignal c)

/-- How often `close` was performed on a queue. -/
def queueCloseCount (q : Option QueueRef) (es : List Effect) : Nat :=
  match q with
  | none => 0
  | some q => es.count (.closeQueue q)

/-- The effects one round of the loop of StopDaemons is expected to perform for
daemon `d`: close its private signal, invoke its Shutdown hook, log its
statistics snapshot. -/
def daemonStopEffects (w : World) (d : DaemonRef) : List Effect :=
  match (w.bases d).shutdown, snapshot (w.bases d).stats w with
  | some c, some rep => [.closeSignal c, .callShutdown d, .logDaemonStats d rep]
  | _, _ => []

/-- The effects expected after the last daemon: close the system signal, wait
for the workers, close the queue, log the latency snapshot. -/
def systemStopEffects (s : Satan) (w : World) : List Effect :=
  match s.shutdown, s.queue, snapshot s.latency w with
  | some c, some q, some rep => [.closeSignal c, .wgWait, .closeQueue q, .logLatency rep]
  | _, _, _ => []

/-- The whole sequence of effects expected of one StopDaemons call. -/
def stopEffects (s : Satan) (w : World) : List Effect :=
  (s.daemons.map (daemonStopEffects w)).flatten ++ systemStopEffects s w

/-- The coordinator can be stopped: the registered daemons have pairwise
distinct private signals (so no daemon is registered twice), every private
signal, the system signal and the queue are allocated and still open, and every
collector to be reported is allocated. -/
def Satan.readyToStop (s : Satan) (w : World) : Prop :=
  (s.daemons.map fun d => (w.bases d).shutdown).Nodup ∧
  (∀ d ∈ s.daemons, signalOpen w (w.bases d).shutdown = true) ∧
  (∀ d ∈ s.daemons, (w.bases d).shutdown ≠ s.shutdown) ∧
  (∀ d ∈ s.daemons, collectorAllocated w (w.bases d).stats = true) ∧
  signalOpen w s.shutdown = true ∧
  queueOpen w s.queue = true ∧
  collectorAllocated w s.latency = true

instance (s : Satan) (w : World) : Decidable (s.readyToStop w) := by
  unfold Satan.readyToStop; infer_instance

/-- A heap in which nothing was allocated yet and no daemon was registered. -/
def emptyWorld : World :=
  { signals := [], queues := [], stats := [],
    bases := fun _ => ⟨none, none, none, none, none, none⟩,
    clock := fun n => 100 + 10 * (n : Int), tick := 0, trace := [] }

/-- A fresh coordinator on which the daemons `ds` were registered in order. -/
def registered (ds : List DaemonRef) (w : World) : Satan × World :=
  let (s, w1) := Summon w
  AddDaemons ds s w1

/-- A fresh coordinator without daemons whose system signal was closed while
no sender waits on the queue. -/
def idleStopping : Satan × World :=
  let (s, w) := Summon emptyWorld
  (s, (closeSignal s.shutdown w).world)

/-- A fresh coordinator without daemons on which StartDaemons was called and
whose StopDaemons call has closed the system signal and now waits for the
workers; no sender waits on the queue. -/
def stoppingPool : Satan × World :=
  let (s, w) := Summon emptyWorld
  let (s1, w1) := s.StartDaemons w
  (s1, ((closeSignal s1.shutdown w1).world).emit .wgWait)

/-- The log lines of the workers with the given indices that start and stop one
after the other. -/
def workerLogs (is : List Nat) : List Effect :=
  (is.map fun i => [Effect.logWorkerStart (i + 1), Effect.logWorkerStop (i + 1)]).flatten

/-- What is expected of one StopDaemons call on coordinator `s` in heap `w`: it
returns without a fatal double close, it closes the private signal of every
registered daemon exactly once and leaves none open, and it closes the system
signal and the queue exactly once each. -/
def closesEachOnce (s : Satan) (w : World) : Prop :=
  (s.StopDaemons w).panic? = none ∧
  (∀ d ∈ s.daemons,
    closeCount (w.bases d).shutdown
      (performedSince w.trace.length (s.StopDaemons w).world) = 1 ∧
    signalClosed (s.StopDaemons w).world (w.bases d).shutdown = true) ∧
  closeCount s.shutdown (performedSince w.trace.length (s.StopDaemons w).world) = 1 ∧
  signalClosed (s.StopDaemons w).world s.shutdown = true ∧
  queueCloseCount s.queue (performedSince w.trace.length (s.StopDaemons w).world) = 1 ∧
  queueClosed (s.StopDaemons w).world s.queue = true

/-- The daemon 0 registered twice on a fresh coordinator. -/
def twiceRegistered : Satan × World := registered [0, 0] emptyWorld

/-- The daemons 4 and 7 registered on a fresh coordinator. -/
def twoDaemons : Satan × World := registered [4, 7] emptyWorld

/-- The daemons 0, 1, 0, 2 registered in this order on a fresh coordinator. -/
def repeatedDaemon : Satan × World := registered [0, 1, 0, 2] emptyWorld

/-- The daemons 3 and 5 registered on a fresh coordinator. -/
def daemonPair : Satan × World := registered [3, 5] emptyWorld

/-- The number of samples a collector holds. -/
def sampleCount (w : World) (r : Option StatsRef) : Nat := (samplesOf w r).length

/-- The queueing-latency sample runWorker computes for a task it receives in
heap `w`: the reading of the clock at the dequeue minus `createdAt`, both as
UnixNano values, in int64 arithmetic. -/
def latencySample (t : task) (w : World) : Int :=
  wrapInt64 (UnixNano (w.clock w.tick) - UnixNano t.createdAt)

/-- The execution-duration sample processTask computes for a task received in
heap `w`: the second reading of the clock after the dequeue minus the first. -/
def durationSample (w : World) : Int :=
  wrapInt64 (UnixNano (w.clock (w.tick + 2)) - UnixNano (w.clock (w.tick + 1)))

/-- The effect that follows the call of the actor of task `t` received in heap
`w`: the log line of the panic handler when the actor, or the collector call,
panicked, and the duration sample in the collector of the owning daemon
otherwise. -/
def afterActorEffects (t : task) (w : World) : List Effect :=
  match t.actor.failure with
  | some v => [.logRecovered t.daemon (.actorFailure v)]
  | none =>
    match (w.bases t.daemon).stats with
    | some r =>
      if r < w.stats.length then [.addSample r (durationSample w)]
      else [.logRecovered t.daemon .nilDereference]
    | none => [.logRecovered t.daemon .nilDereference]

/-- The effects of the task branch of runWorker for task `t` received in heap
`w` by a coordinator whose latency collector is `l`: the latency sample, the
call of the actor, and then either the duration sample in the collector of the
owning daemon or the log line of the panic handler. -/
def taskEffects (l : StatsRef) (t : task) (w : World) : List Effect :=
  [.addSample l (latencySample t w), .callActor t.actor] ++ afterActorEffects t w

/-- The samples the task branch adds to collector `r` for task `t` received in
heap `w` by a coordinator whose latency collector is `l`. -/
def taskSamples (l : StatsRef) (t : task) (w : World) (r : StatsRef) : List Int :=
  (if l = r then [latencySample t w] else []) ++
    (if t.actor.failure = none ∧ (w.bases t.daemon).stats = some r ∧ r < w.stats.length
      then [durationSample w] else [])

/-- Whether the task branch records a duration sample in collector `r` for
task `t`: the actor returns and `r` is the allocated collector of the owner. -/
def recordsDuration (w : World) (r : StatsRef) (t : task) : Bool :=
  decide (t.actor.failure = none ∧ (w.bases t.daemon).stats = some r ∧ r < w.stats.length)

/-- The collectors are private: the latency collector of the coordinator and the
collector of every registered daemon are allocated, no daemon uses the latency
collector, and two different daemons never use the same collector. -/
def Satan.collectorsPrivate (s : Satan) (w : World) : Prop :=
  collectorAllocated w s.latency = true ∧
  (∀ d ∈ s.daemons, collectorAllocated w (w.bases d).stats = true) ∧
  (∀ d ∈ s.daemons, (w.bases d).stats ≠ s.latency) ∧
  (∀ d ∈ s.daemons, ∀ k ∈ s.daemons, (w.bases d).stats = (w.bases k).stats → d = k)

instance (s : Satan) (w : World) : Decidable (s.collectorsPrivate w) := by
  unfold Satan.collectorsPrivate; infer_instance

/-- Modelled from the spec: the task producer surface of daemon.go (not part of
src/): senders block on the open queue, each offering one task, in this order;
on a closed queue a send fails and nothing is queued. -/
def World.offer (w : World) (q : Option QueueRef) (ts : List task) : World :=
  match q with
  | none => w
  | some q =>
    match w.queues[q]? with
    | none => w
    | some st =>
      if st.closed then w
      else { w with queues := w.queues.set q ⟨false, st.sendq ++ ts⟩ }

/-- A task of daemon `d` whose actor returns, created at instant 50. -/
def okTask (d : DaemonRef) (n : Nat) : task :=
  { daemon := d, actor := ⟨n, none⟩, createdAt := 50, system := false }

/-- A task of daemon `d` whose actor panics with value 1, created at instant 50. -/
def badTask (d : DaemonRef) (n : Nat) : task :=
  { daemon := d, actor := ⟨n, some 1⟩, createdAt := 50, system := false }

/-- The tasks of the scenario of two daemons: five of daemon 1 and three of
daemon 2, interleaved. -/
def eightTasks : List task :=
  [okTask 1 0, okTask 2 1, okTask 1 2, okTask 1 3, okTask 2 4, okTask 1 5, okTask 2 6,
   okTask 1 7]

/-- The daemons 1 and 2 registered on a fresh coordinator, with the eight tasks
offered on its queue. -/
def twoProducers : Satan × World :=
  let (s, w) := registered [1, 2] emptyWorld
  (s, w.offer s.queue eightTasks)

/-- The daemon 1 registered on a fresh coordinator whose system signal was then
closed, while one task of daemon 1 is still offered on the queue. -/
def busyStopping : Satan × World :=
  let (s, w) := registered [1] emptyWorld
  (s, (closeSignal s.shutdown (w.offer s.queue [okTask 1 0])).world)

/-- The daemons 1 and 2 registered on a fresh coordinator; the queue offers a
failing task of daemon 1, then a task of daemon 2, then a failing task of
daemon 1. -/
def failingFirst : Satan × World :=
  let (s, w) := registered [1, 2] emptyWorld
  (s, w.offer s.queue [badTask 1 0, okTask 2 1, badTask 1 2])

/-- Ten tasks of daemon 1 whose actors all fail. -/
def tenFailing : List task := (List.range 10).map (badTask 1)

/-- The daemon 1 registered on a fresh coordinator, with the ten failing tasks
offered on its queue. -/
def alwaysFailing : Satan × World :=
  let (s, w) := registered [1] emptyWorld
  (s, w.offer s.queue tenFailing)

/-- The value fits the int64 range. -/
def inInt64 (x : Int) : Prop := -2 ^ 63 ≤ x ∧ x < 2 ^ 63

instance (x : Int) : Decidable (inInt64 x) := by
  unfold inInt64; infer_instance

/-- A task of daemon 1 whose creation instant, 200, is later than the reading
100 of the wall clock at its dequeue (the clock was set back in between). -/
def lateTask : task :=
  { daemon := 1, actor := ⟨0, none⟩, createdAt := 200, system := false }

/-- The daemon 1 registered on a fresh coordinator, with the late task offered
on its queue; the next reading of the clock is 100. -/
def lateArrival : Satan × World :=
  let (s, w) := registered [1] emptyWorld
  (s, w.offer s.queue [lateTask])

/-- The heap a pass of the loop ends in. -/
def IterResult.world : IterResult → World
  | .again w => w
  | .exit w => w
  | .crash _ w => w

/-! ## Theorems -/

/-! ### Allocation and registration -/

theorem AddDaemon_daemons (s : Satan) (d : DaemonRef) (w : World) :
    (s.AddDaemon d w).1.daemons = s.daemons ++ [d] := rfl

theorem AddDaemons_daemons (ds : List DaemonRef) (s : Satan) (w : World) :
    (AddDaemons ds s w).1.daemons = s.daemons ++ ds := by
  induction ds generalizing s w with
  | nil => simp [AddDaemons]
  | cons d ds ih =>
    simp only [AddDaemons]
    rw [ih, AddDaemon_daemons]
    simp

theorem AddDaemons_append (xs ys : List DaemonRef) (s : Satan) (w : World) :
    AddDaemons (xs ++ ys) s w =
      AddDaemons ys (AddDaemons xs s w).1 (AddDaemons xs s w).2 := by
  induction xs generalizing s w with
  | nil => simp [AddDaemons]
  | cons d xs ih => simp only [List.cons_append, AddDaemons]; exact ih _ _

theorem registered_daemons (ds : List DaemonRef) (w : World) :
    (registered ds w).1.daemons = ds := by
  simp [registered, AddDaemons_daemons, Summon]

/-- C3: after AddDaemon(d) the base state of d holds the coordinator's subscribe
function, publisher and queue reference (the reference the workers receive
from), points back to d, and has a signal and a collector that were not
allocated before, the signal open and the collector empty; the coordinator
keeps its queue, system signal and latency collector, and nothing that was
allocated before the call is changed. -/
theorem AddDaemon_injects (s : Satan) (d : DaemonRef) (w : World) :
    ((s.AddDaemon d w).2.bases d).subscribeFunc = s.SubscribeFunc ∧
    ((s.AddDaemon d w).2.bases d).publisher = s.Publisher ∧
    ((s.AddDaemon d w).2.bases d).queue = s.queue ∧
    ((s.AddDaemon d w).2.bases d).self = some d ∧
    (∃ c, ((s.AddDaemon d w).2.bases d).shutdown = some c ∧
      w.signals[c]? = none ∧ (s.AddDaemon d w).2.signals[c]? = some false ∧
      signalFired (some c) (s.AddDaemon d w).2 = false) ∧
    (∃ r, ((s.AddDaemon d w).2.bases d).stats = some r ∧
      w.stats[r]? = none ∧ (s.AddDaemon d w).2.stats[r]? = some ⟨[]⟩ ∧
      samplesOf (s.AddDaemon d w).2 (some r) = []) ∧
    ((s.AddDaemon d w).2.bases d).queue = (s.AddDaemon d w).1.queue ∧
    (s.AddDaemon d w).1.queue = s.queue ∧
    (s.AddDaemon d w).1.shutdown = s.shutdown ∧
    (s.AddDaemon d w).1.latency = s.latency ∧
    (s.AddDaemon d w).2.queues = w.queues ∧
    (∀ c, c < w.signals.length → (s.AddDaemon d w).2.signals[c]? = w.signals[c]?) ∧
    (∀ r, r < w.stats.length → (s.AddDaemon d w).2.stats[r]? = w.stats[r]?) := by
  refine ⟨?_, ?_, ?_, ?_, ?_, ?_, ?_, rfl, rfl, rfl, rfl, ?_, ?_⟩
  · simp [Satan.AddDaemon, World.emit, World.setBase]
  · simp [Satan.AddDaemon, World.emit, World.setBase]
  · simp [Satan.AddDaemon, World.emit, World.setBase]
  · simp [Satan.AddDaemon, World.emit, World.setBase]
  · refine ⟨w.signals.length, ?_, ?_, ?_, ?_⟩ <;>
      simp [Satan.AddDaemon, World.emit, World.setBase, makeSignal, newStatistics, signalFired]
  · refine ⟨w.stats.length, ?_, ?_, ?_, ?_⟩ <;>
      simp [Satan.AddDaemon, World.emit, World.setBase, makeSignal, newStatistics, samplesOf]
  · simp [Satan.AddDaemon, World.emit, World.setBase]
  · intro c hc
    simp [Satan.AddDaemon, World.emit, World.setBase, makeSignal, newStatistics,
      List.getElem?_append_left hc]
  · intro r hr
    simp [Satan.AddDaemon, World.emit, World.setBase, makeSignal, newStatistics,
      List.getElem?_append_left hr]

/-! ### StartDaemons -/

theorem runWorker_idle (s : Satan) (w : World) (q : QueueRef) (fuel i : Nat)
    (hq : s.queue = some q) (hget : w.queues[q]? = some ⟨false, []⟩)
    (hf : signalFired s.shutdown w = true) (hfuel : 0 < fuel) :
    s.runWorker fuel i w =
      some (.returned ((w.emit (.logWorkerStart (i + 1))).emit (.logWorkerStop (i + 1)))) := by
  obtain ⟨n, rfl⟩ : ∃ n, fuel = n + 1 := ⟨fuel - 1, by omega⟩
  have hrecv : tryRecv s.queue (w.emit (.logWorkerStart (i + 1))) = none := by
    simp [tryRecv, hq, World.emit, hget]
  have hf1 : signalFired s.shutdown (w.emit (.logWorkerStart (i + 1))) = true := by
    cases hc : s.shutdown <;> simp [signalFired, hc, World.emit] at hf ⊢
    exact hf
  simp [Satan.runWorker, workerLoop, workerRounds, Satan.workerIter, hrecv, hf1]

theorem runWorkers_idle (fuel : Nat) (hfuel : 0 < fuel) (q : QueueRef) (is : List Nat) :
    ∀ (s : Satan) (w : World), s.queue = some q → w.queues[q]? = some ⟨false, []⟩ →
      signalFired s.shutdown w = true → is.length ≤ s.wg →
      ∃ w1, runWorkers fuel is s w = some ({ s with wg := s.wg - is.length }, .returned w1) ∧
        w1.trace = w.trace ++ workerLogs is ∧ w1.queues = w.queues ∧
        w1.signals = w.signals := by
  induction is with
  | nil =>
    intro s w _ _ _ _
    exact ⟨w, by simp [runWorkers], by simp [workerLogs], rfl, rfl⟩
  | cons i rest ih =>
    intro s w hq hget hf hlen
    have hpos : ¬ s.wg = 0 := by simp only [List.length_cons] at hlen; omega
    have hrun := runWorker_idle s w q fuel i hq hget hf hfuel
    have hf1 : signalFired ({ s with wg := s.wg - 1 } : Satan).shutdown
        ((w.emit (.logWorkerStart (i + 1))).emit (.logWorkerStop (i + 1))) = true := by
      cases hc : s.shutdown <;> simp [signalFired, hc, World.emit] at hf ⊢
      exact hf
    obtain ⟨w1, h1, h2, h3, h4⟩ := ih { s with wg := s.wg - 1 }
      ((w.emit (.logWorkerStart (i + 1))).emit (.logWorkerStop (i + 1)))
      hq (by simpa [World.emit] using hget) hf1
      (by simp only [List.length_cons] at hlen; show rest.length ≤ s.wg - 1; omega)
    refine ⟨w1, ?_, ?_, ?_, ?_⟩
    · simp only [runWorkers, Satan.workerGoroutine, hrun, Option.map_some', Satan.wgDone,
        hpos, if_false]
      rw [h1]
      simp only [List.length_cons]
      have : s.wg - 1 - rest.length = s.wg - (rest.length + 1) := by omega
      rw [this]
    · rw [h2]; simp [World.emit, workerLogs]
    · rw [h3]; rfl
    · rw [h4]; rfl

/-- C9: StartDaemons starts exactly ten worker goroutines, for the indices 0 to
9 in this order, raises the wait-group count by exactly ten, and leaves the
registry, the queue, the signals, the collectors and every base state as they
were, whatever the registry holds; the goroutine of a worker whose loop returns
lowers the count by exactly one, so that once the system signal has fired and
no sender waits on the queue the ten goroutines all come to their end and the
count is back at its value before the call. -/
theorem StartDaemons_launches (s : Satan) (w : World) :
    (s.StartDaemons w).2.trace = w.trace ++ (List.range 10).map Effect.goWorker ∧
    (s.StartDaemons w).1.wg = s.wg + 10 ∧
    (s.StartDaemons w).1.daemons = s.daemons ∧
    (s.StartDaemons w).1.queue = s.queue ∧
    (s.StartDaemons w).1.shutdown = s.shutdown ∧
    (s.StartDaemons w).1.latency = s.latency ∧
    (s.StartDaemons w).2.queues = w.queues ∧
    (s.StartDaemons w).2.signals = w.signals ∧
    (s.StartDaemons w).2.stats = w.stats ∧
    (s.StartDaemons w).2.bases = w.bases ∧
    (∀ (t : Satan) (fuel i : Nat) (w1 w2 : World),
      t.runWorker fuel i w1 = some (.returned w2) → 0 < t.wg →
      t.workerGoroutine fuel i w1 = some ({ t with wg := t.wg - 1 }, .returned w2)) ∧
    (∀ (q : QueueRef) (w2 : World) (fuel : Nat), s.queue = some q →
      w2.queues[q]? = some ⟨false, []⟩ → signalFired s.shutdown w2 = true → 0 < fuel →
      ∃ w3, runWorkers fuel (List.range 10) (s.StartDaemons w).1 w2 =
          some ({ (s.StartDaemons w).1 with wg := s.wg }, .returned w3) ∧
        w3.trace = w2.trace ++ workerLogs (List.range 10)) := by
  refine ⟨?_, ?_, rfl, rfl, rfl, rfl, ?_, ?_, ?_, ?_, ?_, ?_⟩
  · simp [Satan.StartDaemons, startLoop, defaultNumWorkers, World.emit, List.range,
      List.range.loop]
  · simp [Satan.StartDaemons, defaultNumWorkers]
  · simp [Satan.StartDaemons, startLoop, defaultNumWorkers, World.emit]
  · simp [Satan.StartDaemons, startLoop, defaultNumWorkers, World.emit]
  · simp [Satan.StartDaemons, startLoop, defaultNumWorkers, World.emit]
  · simp [Satan.StartDaemons, startLoop, defaultNumWorkers, World.emit]
  · intro t fuel i w1 w2 h hpos
    have hne : ¬ t.wg = 0 := by omega
    simp [Satan.workerGoroutine, h, Satan.wgDone, hne]
  · intro q w2 fuel hq hget hf hfuel
    obtain ⟨w3, h1, h2, -⟩ := runWorkers_idle fuel hfuel q (List.range 10)
      (s.StartDaemons w).1 w2 hq hget hf
      (by simp [Satan.StartDaemons, defaultNumWorkers])
    refine ⟨w3, ?_, h2⟩
    rw [h1]
    simp [Satan.StartDaemons, defaultNumWorkers]

/-- Witness for C9: on a coordinator whose pool was started and whose
StopDaemons call waits for the workers, worker 0 returns after one pass and its
goroutine takes the count from 10 to 9, and the ten goroutines together take it
back to 0. -/
theorem StartDaemons_launches_witness :
    stoppingPool.1.wg = 10 ∧
    stoppingPool.1.workerGoroutine 1 0 stoppingPool.2 =
      some ({ stoppingPool.1 with wg := stoppingPool.1.wg - 1 },
        .returned ((stoppingPool.2.emit (.logWorkerStart 1)).emit (.logWorkerStop 1))) ∧
    (∃ w3, runWorkers 1 (List.range 10) stoppingPool.1 stoppingPool.2 =
        some ({ stoppingPool.1 with wg := 0 }, .returned w3) ∧
      w3.trace = stoppingPool.2.trace ++ workerLogs (List.range 10)) :=
  ⟨(StartDaemons_launches (Summon emptyWorld).1 (Summon emptyWorld).2).2.1,
    (StartDaemons_launches (Summon emptyWorld).1 (Summon emptyWorld).2).2.2.2.2.2.2.2.2.2.2.1
      stoppingPool.1 1 0 stoppingPool.2 _ rfl (by decide),
    (StartDaemons_launches (Summon emptyWorld).1 (Summon emptyWorld).2).2.2.2.2.2.2.2.2.2.2.2
      0 stoppingPool.2 1 (by decide) (by decide) (by decide) (by decide)⟩

/-! ### StopDaemons on a coordinator that is ready to stop -/

theorem signalOpen_some (w : World) (c : SignalRef) :
    signalOpen w (some c) = true ↔ w.signals[c]? = some false := by
  simp [signalOpen]

theorem signalClosed_some (w : World) (c : SignalRef) :
    signalClosed w (some c) = true ↔ w.signals[c]? = some true := by
  simp [signalClosed]

theorem closeSignal_of_open {w : World} {c : Option SignalRef}
    (h : signalOpen w c = true) :
    ∃ k, c = some k ∧ w.signals[k]? = some false ∧ closeSignal c w =
      .returned { w.emit (.closeSignal k) with signals := w.signals.set k true } := by
  cases c with
  | none => simp [signalOpen] at h
  | some k =>
    have hk : w.signals[k]? = some false := (signalOpen_some w k).1 h
    exact ⟨k, rfl, hk, by simp [closeSignal, hk]⟩

theorem snapshot_of_allocated {w : World} {r : Option StatsRef}
    (h : collectorAllocated w r = true) :
    ∃ rep, snapshot r w = some rep := by
  cases r with
  | none => simp [collectorAllocated] at h
  | some k =>
    have hk : k < w.stats.length := by simpa [collectorAllocated] using h
    exact ⟨report (w.stats[k]).samples, by simp [snapshot, List.getElem?_eq_getElem hk]⟩

theorem snapshot_congr {w w1 : World} (h : w1.stats = w.stats) (r : Option StatsRef) :
    snapshot r w1 = snapshot r w := by
  cases r <;> simp [snapshot, h]

theorem daemonStopEffects_congr {w w1 : World} (hb : w1.bases = w.bases)
    (hs : w1.stats = w.stats) (d : DaemonRef) :
    daemonStopEffects w1 d = daemonStopEffects w d := by
  simp [daemonStopEffects, hb, snapshot_congr hs]

theorem stopDaemon_ready {w : World} {d : DaemonRef}
    (hop : signalOpen w (w.bases d).shutdown = true)
    (hst : collectorAllocated w (w.bases d).stats = true) :
    ∃ c rep w1, (w.bases d).shutdown = some c ∧ w.signals[c]? = some false ∧
      snapshot (w.bases d).stats w = some rep ∧
      stopDaemon d w = .returned w1 ∧
      w1.trace = w.trace ++ [.closeSignal c, .callShutdown d, .logDaemonStats d rep] ∧
      w1.signals = w.signals.set c true ∧ w1.bases = w.bases ∧ w1.stats = w.stats ∧
      w1.queues = w.queues := by
  obtain ⟨c, hc, hk, hclose⟩ := closeSignal_of_open hop
  obtain ⟨rep, hrep⟩ := snapshot_of_allocated hst
  refine ⟨c, rep,
    { signals := w.signals.set c true, queues := w.queues, stats := w.stats,
      bases := w.bases, clock := w.clock, tick := w.tick,
      trace := w.trace ++ [Effect.closeSignal c] ++ [Effect.callShutdown d] ++
        [Effect.logDaemonStats d rep] },
    hc, hk, hrep, ?_, ?_, rfl, rfl, rfl, rfl⟩
  · rw [stopDaemon, hclose]
    simp only [Outcome.andThen, World.emit]
    have : snapshot (w.bases d).stats
        { signals := w.signals.set c true, queues := w.queues, stats := w.stats,
          bases := w.bases, clock := w.clock, tick := w.tick,
          trace := w.trace ++ [Effect.closeSignal c] ++ [Effect.callShutdown d] } = some rep := by
      rw [← hrep]; exact snapshot_congr rfl _
    rw [this]
  · simp [World.emit]

theorem stopLoop_ready (ds : List DaemonRef) (w : World)
    (hnd : (ds.map fun d => (w.bases d).shutdown).Nodup)
    (hop : ∀ d ∈ ds, signalOpen w (w.bases d).shutdown = true)
    (hst : ∀ d ∈ ds, collectorAllocated w (w.bases d).stats = true) :
    ∃ w1, stopLoop ds w = .returned w1 ∧
      w1.trace = w.trace ++ (ds.map (daemonStopEffects w)).flatten ∧
      w1.bases = w.bases ∧ w1.stats = w.stats ∧ w1.queues = w.queues ∧
      (∀ c, some c ∉ ds.map (fun d => (w.bases d).shutdown) →
        w1.signals[c]? = w.signals[c]?) ∧
      (∀ d ∈ ds, signalClosed w1 (w.bases d).shutdown = true) := by
  induction ds generalizing w with
  | nil => exact ⟨w, rfl, by simp, rfl, rfl, rfl, fun _ _ => rfl, by simp⟩
  | cons d ds ih =>
    obtain ⟨c, rep, w1, hc, hk, hrep, hrun, htr, hsig, hb, hs, hq⟩ :=
      stopDaemon_ready (hop d (List.mem_cons_self _ _)) (hst d (List.mem_cons_self _ _))
    rw [List.map_cons, List.nodup_cons] at hnd
    have hne : ∀ d1 ∈ ds, (w.bases d1).shutdown ≠ some c := by
      intro d1 h1 h
      exact hnd.1 (List.mem_map.2 ⟨d1, h1, by rw [h, hc]⟩)
    have hop1 : ∀ d1 ∈ ds, signalOpen w1 (w1.bases d1).shutdown = true := by
      intro d1 h1
      have h2 := hop d1 (List.mem_cons_of_mem _ h1)
      have h3 := hne d1 h1
      rw [hb]
      cases hd1 : (w.bases d1).shutdown with
      | none => rw [hd1] at h2; simp [signalOpen] at h2
      | some k =>
        rw [hd1] at h2 h3
        have hkc : c ≠ k := fun h => h3 (by rw [h])
        rw [signalOpen_some] at h2 ⊢
        rw [hsig, List.getElem?_set_ne hkc]; exact h2
    have hnd1 : (ds.map fun d => (w1.bases d).shutdown).Nodup := by rw [hb]; exact hnd.2
    have hst1 : ∀ d1 ∈ ds, collectorAllocated w1 (w1.bases d1).stats = true := by
      intro d1 h1
      have := hst d1 (List.mem_cons_of_mem _ h1)
      rw [hb]
      cases hr : (w.bases d1).stats <;> simp [collectorAllocated, hr, hs] at this ⊢
      exact this
    obtain ⟨w2, hrun2, htr2, hb2, hs2, hq2, hkeep, hclosed⟩ := ih w1 hnd1 hop1 hst1
    refine ⟨w2, ?_, ?_, hb2.trans hb, hs2.trans hs, hq2.trans hq, ?_, ?_⟩
    · simp [stopLoop, hrun, Outcome.andThen, hrun2]
    · have he : daemonStopEffects w d = [.closeSignal c, .callShutdown d, .logDaemonStats d rep] := by
        simp [daemonStopEffects, hc, hrep]
      have hcongr : ds.map (daemonStopEffects w1) = ds.map (daemonStopEffects w) := by
        congr 1; funext x; exact daemonStopEffects_congr hb hs x
      rw [htr2, htr, hcongr, List.map_cons, List.flatten_cons, he]
      simp
    · intro k hk1
      rw [List.map_cons, List.mem_cons, not_or] at hk1
      have hkc : c ≠ k := fun h => hk1.1 (by rw [hc, h])
      have := hkeep k (by rw [hb]; exact hk1.2)
      rw [this, hsig, List.getElem?_set_ne hkc]
    · intro d1 h1
      rcases List.mem_cons.1 h1 with h | h
      · subst h
        rw [hc, signalClosed_some]
        have hnot : some c ∉ ds.map (fun d => (w1.bases d).shutdown) := by
          rw [hb, ← hc]; exact hnd.1
        rw [hkeep c hnot, hsig]
        have hlt : c < w.signals.length := by
          rcases Nat.lt_or_ge c w.signals.length with h | h
          · exact h
          · rw [List.getElem?_eq_none h] at hk; cases hk
        simp [List.getElem?_set_self hlt]
      · have := hclosed d1 h
        rw [hb] at this; exact this

theorem closeQueue_of_open {w : World} {q : Option QueueRef}
    (h : queueOpen w q = true) :
    ∃ k, q = some k ∧ k < w.queues.length ∧ closeQueue q w =
      .returned { w.emit (.closeQueue k) with queues := w.queues.set k ⟨true, []⟩ } := by
  cases q with
  | none => simp [queueOpen] at h
  | some k =>
    cases hk : w.queues[k]? with
    | none => simp [queueOpen, hk] at h
    | some st =>
      obtain ⟨cl, sq⟩ := st
      have hcl : cl = false := by simpa [queueOpen, hk] using h
      subst hcl
      have hlt : k < w.queues.length := by
        rcases Nat.lt_or_ge k w.queues.length with h1 | h1
        · exact h1
        · rw [List.getElem?_eq_none h1] at hk; cases hk
      exact ⟨k, rfl, hlt, by simp [closeQueue, hk]⟩

theorem StopDaemons_ready {s : Satan} {w : World} (h : s.readyToStop w) :
    ∃ w1, s.StopDaemons w = .returned w1 ∧
      w1.trace = w.trace ++ stopEffects s w ∧
      (∀ d ∈ s.daemons, signalClosed w1 (w.bases d).shutdown = true) ∧
      signalClosed w1 s.shutdown = true ∧ queueClosed w1 s.queue = true ∧
      w1.bases = w.bases ∧ w1.stats = w.stats := by
  obtain ⟨hnd, hop, hne, hst, hsys, hq, hl⟩ := h
  obtain ⟨w1, hrun, htr, hb, hs, hqs, hkeep, hclosed⟩ := stopLoop_ready s.daemons w hnd hop hst
  obtain ⟨c0, hc0, hk0, -⟩ := closeSignal_of_open hsys
  have hnot : some c0 ∉ s.daemons.map (fun d => (w.bases d).shutdown) := by
    intro hmem
    obtain ⟨d, hd, hsig⟩ := List.mem_map.1 hmem
    exact hne d hd (by rw [hsig, hc0])
  have hopen1 : signalOpen w1 s.shutdown = true := by
    rw [hc0, signalOpen_some, hkeep c0 hnot]; exact hk0
  obtain ⟨c, hc, -, hclose⟩ := closeSignal_of_open hopen1
  have hcc : c = c0 := by rw [hc0] at hc; exact (Option.some.inj hc).symm
  subst hcc
  have hq1 : queueOpen (({ w1.emit (.closeSignal c) with
      signals := w1.signals.set c true } : World).emit .wgWait) s.queue = true := by
    cases hsq : s.queue <;> simp [queueOpen, hsq, World.emit, hqs] at hq ⊢
    exact hq
  obtain ⟨q, hqq, hqlt, hcq⟩ := closeQueue_of_open hq1
  obtain ⟨rep, hrep⟩ := snapshot_of_allocated hl
  have hlt0 : c < w1.signals.length := by
    rcases Nat.lt_or_ge c w1.signals.length with h1 | h1
    · exact h1
    · have := hkeep c hnot
      rw [List.getElem?_eq_none h1, hk0] at this; cases this
  refine ⟨World.emit { World.emit (World.emit { w1.emit (.closeSignal c) with
      signals := w1.signals.set c true } .wgWait) (.closeQueue q) with
      queues := w1.queues.set q ⟨true, []⟩ } (.logLatency rep), ?_, ?_, ?_, ?_, ?_, ?_, ?_⟩
  · rw [Satan.StopDaemons, hrun]
    simp only [Outcome.andThen, Satan.stopSystem]
    rw [hclose]
    simp only [hcq]
    rw [snapshot_congr (w := w) (by simp [World.emit, hs]), hrep]
    rfl
  · simp only [World.emit, htr, stopEffects, systemStopEffects, hc0, hqq, hrep]
    simp
  · intro d hd
    have h1 := hclosed d hd
    cases hsig : (w.bases d).shutdown with
    | none => rw [hsig] at h1; simp [signalClosed] at h1
    | some k =>
      rw [hsig, signalClosed_some] at h1
      rw [signalClosed_some]
      simp only [World.emit]
      rcases eq_or_ne c k with hck | hck
      · subst hck; simp [List.getElem?_set_self hlt0]
      · rw [List.getElem?_set_ne hck]; exact h1
  · rw [hc0, signalClosed_some]
    simp [World.emit, List.getElem?_set_self hlt0]
  · rw [hqq]
    have hqlt1 : q < w1.queues.length := by simpa [World.emit] using hqlt
    simp [queueClosed, World.emit, List.getElem?_set_self hqlt1]
  · simpa [World.emit] using hb
  · simpa [World.emit] using hs

/-! ### Registration makes a coordinator ready to stop -/

theorem AddDaemon_signals (s : Satan) (d : DaemonRef) (w : World) :
    (s.AddDaemon d w).2.signals = w.signals ++ [false] := rfl

theorem AddDaemon_stats (s : Satan) (d : DaemonRef) (w : World) :
    (s.AddDaemon d w).2.stats = w.stats ++ [⟨[]⟩] := rfl

theorem AddDaemon_queues (s : Satan) (d : DaemonRef) (w : World) :
    (s.AddDaemon d w).2.queues = w.queues := rfl

theorem AddDaemon_trace (s : Satan) (d : DaemonRef) (w : World) :
    (s.AddDaemon d w).2.trace = w.trace ++ [.goStartup d] := rfl

theorem AddDaemon_bases_self (s : Satan) (d : DaemonRef) (w : World) :
    (s.AddDaemon d w).2.bases d =
      { self := some d, subscribeFunc := s.SubscribeFunc, publisher := s.Publisher,
        queue := s.queue, shutdown := some w.signals.length,
        stats := some w.stats.length } := by
  simp [Satan.AddDaemon, World.emit, World.setBase, makeSignal, newStatistics]

theorem AddDaemon_bases_ne (s : Satan) {d k : DaemonRef} (w : World) (h : k ≠ d) :
    (s.AddDaemon d w).2.bases k = w.bases k := by
  simp [Satan.AddDaemon, World.emit, World.setBase, makeSignal, newStatistics, h]

theorem signalOpen_lt {w : World} {c : Option SignalRef} (h : signalOpen w c = true) :
    ∃ k, c = some k ∧ k < w.signals.length := by
  obtain ⟨k, hk, hget, -⟩ := closeSignal_of_open h
  refine ⟨k, hk, ?_⟩
  rcases Nat.lt_or_ge k w.signals.length with h1 | h1
  · exact h1
  · rw [List.getElem?_eq_none h1] at hget; cases hget

theorem signalOpen_grow {w w1 : World} {c : Option SignalRef} {b : Bool}
    (hs : w1.signals = w.signals ++ [b]) (h : signalOpen w c = true) :
    signalOpen w1 c = true := by
  obtain ⟨k, hk, hlt⟩ := signalOpen_lt h
  subst hk
  rw [signalOpen_some] at h ⊢
  rw [hs, List.getElem?_append_left hlt]; exact h

theorem collectorAllocated_grow {w w1 : World} {r : Option StatsRef} {st : statistics}
    (hs : w1.stats = w.stats ++ [st]) (h : collectorAllocated w r = true) :
    collectorAllocated w1 r = true := by
  cases r with
  | none => simp [collectorAllocated] at h
  | some k =>
    have hk : k < w.stats.length := by simpa [collectorAllocated] using h
    have : k < w.stats.length + 1 := Nat.lt_succ_of_lt hk
    simpa [collectorAllocated, hs] using this

theorem Summon_ready (w : World) : (Summon w).1.readyToStop (Summon w).2 := by
  refine ⟨?_, ?_, ?_, ?_, ?_, ?_, ?_⟩ <;>
    simp [Summon, makeQueue, makeSignal, newStatistics, signalOpen, queueOpen,
      collectorAllocated]

theorem AddDaemon_ready {s : Satan} {w : World} {d : DaemonRef}
    (h : s.readyToStop w) (hd : d ∉ s.daemons) :
    (s.AddDaemon d w).1.readyToStop (s.AddDaemon d w).2 := by
  obtain ⟨hnd, hop, hne, hst, hsys, hq, hl⟩ := h
  have hold : ∀ k ∈ s.daemons, (s.AddDaemon d w).2.bases k = w.bases k := by
    intro k hk
    exact AddDaemon_bases_ne s w (fun e => hd (e ▸ hk))
  have hmap : (s.daemons.map fun k => ((s.AddDaemon d w).2.bases k).shutdown) =
      s.daemons.map fun k => (w.bases k).shutdown := by
    apply List.map_congr_left
    intro k hk; rw [hold k hk]
  refine ⟨?_, ?_, ?_, ?_, ?_, ?_, ?_⟩
  · rw [AddDaemon_daemons, List.map_append, hmap, List.map_singleton, AddDaemon_bases_self]
    refine List.Nodup.append hnd (List.nodup_singleton _) ?_
    rw [List.disjoint_singleton]
    intro hmem
    obtain ⟨k, hk, hsig⟩ := List.mem_map.1 hmem
    obtain ⟨c, hc, hlt⟩ := signalOpen_lt (hop k hk)
    rw [hc] at hsig
    have e := Option.some.inj hsig
    rw [e] at hlt
    exact Nat.lt_irrefl _ hlt
  · intro k hk
    rw [AddDaemon_daemons, List.mem_append, List.mem_singleton] at hk
    rcases hk with hk | hk
    · rw [hold k hk]
      exact signalOpen_grow (AddDaemon_signals s d w) (hop k hk)
    · subst hk
      rw [AddDaemon_bases_self, signalOpen_some, AddDaemon_signals]
      simp
  · intro k hk
    rw [AddDaemon_daemons, List.mem_append, List.mem_singleton] at hk
    rcases hk with hk | hk
    · rw [hold k hk]; exact hne k hk
    · subst hk
      rw [AddDaemon_bases_self]
      obtain ⟨c, hc, hlt⟩ := signalOpen_lt hsys
      intro e
      have e1 : some w.signals.length = some c := e.trans hc
      have e2 := Option.some.inj e1
      rw [← e2] at hlt
      exact Nat.lt_irrefl _ hlt
  · intro k hk
    rw [AddDaemon_daemons, List.mem_append, List.mem_singleton] at hk
    rcases hk with hk | hk
    · rw [hold k hk]
      exact collectorAllocated_grow (AddDaemon_stats s d w) (hst k hk)
    · subst hk
      rw [AddDaemon_bases_self]
      simp [collectorAllocated, AddDaemon_stats]
  · exact signalOpen_grow (AddDaemon_signals s d w) hsys
  · show queueOpen (s.AddDaemon d w).2 s.queue = true
    cases hsq : s.queue <;> simp [queueOpen, hsq, AddDaemon_queues] at hq ⊢
    exact hq
  · exact collectorAllocated_grow (AddDaemon_stats s d w) hl

theorem AddDaemons_ready (ds : List DaemonRef) {s : Satan} {w : World}
    (h : s.readyToStop w) (hnd : ds.Nodup) (hdis : ∀ d ∈ ds, d ∉ s.daemons) :
    (AddDaemons ds s w).1.readyToStop (AddDaemons ds s w).2 := by
  induction ds generalizing s w with
  | nil => exact h
  | cons d ds ih =>
    rw [List.nodup_cons] at hnd
    simp only [AddDaemons]
    apply ih (AddDaemon_ready h (hdis d (List.mem_cons_self _ _))) hnd.2
    intro k hk
    rw [AddDaemon_daemons, List.mem_append, List.mem_singleton, not_or]
    exact ⟨hdis k (List.mem_cons_of_mem _ hk), fun e => hnd.1 (e ▸ hk)⟩

theorem registered_ready (ds : List DaemonRef) (w : World) (hnd : ds.Nodup) :
    (registered ds w).1.readyToStop (registered ds w).2 := by
  simp only [registered]
  exact AddDaemons_ready ds (Summon_ready w) hnd (by simp [Summon])

/-! ### The effects of StopDaemons -/

theorem daemonStopEffects_ready {w : World} {d : DaemonRef}
    (hop : signalOpen w (w.bases d).shutdown = true)
    (hst : collectorAllocated w (w.bases d).stats = true) :
    ∃ c rep, (w.bases d).shutdown = some c ∧ snapshot (w.bases d).stats w = some rep ∧
      daemonStopEffects w d = [.closeSignal c, .callShutdown d, .logDaemonStats d rep] := by
  obtain ⟨c, hc, -⟩ := signalOpen_lt hop
  obtain ⟨rep, hrep⟩ := snapshot_of_allocated hst
  exact ⟨c, rep, hc, hrep, by simp [daemonStopEffects, hc, hrep]⟩

theorem systemStopEffects_ready {s : Satan} {w : World} (h : s.readyToStop w) :
    ∃ c q rep, s.shutdown = some c ∧ s.queue = some q ∧ snapshot s.latency w = some rep ∧
      systemStopEffects s w = [.closeSignal c, .wgWait, .closeQueue q, .logLatency rep] := by
  obtain ⟨-, -, -, -, hsys, hq, hl⟩ := h
  obtain ⟨c, hc, -⟩ := signalOpen_lt hsys
  obtain ⟨q, hqq, -⟩ := closeQueue_of_open hq
  obtain ⟨rep, hrep⟩ := snapshot_of_allocated hl
  exact ⟨c, q, rep, hc, hqq, hrep, by simp [systemStopEffects, hc, hqq, hrep]⟩

/-- C1 (amended): on a coordinator that is ready to stop (no daemon registered
twice, every private signal, the system signal and the queue still open), one
StopDaemons call returns and performs exactly: for each registered daemon in
registry order, close its private signal, invoke its Shutdown hook, log its
statistics snapshot; then close the system signal, wait for the workers, close
the queue, log the latency snapshot. -/
theorem StopDaemons_effects (s : Satan) (w : World) (h : s.readyToStop w) :
    (∃ w1, s.StopDaemons w = .returned w1 ∧
      w1.trace = w.trace ++
        (s.daemons.map (daemonStopEffects w)).flatten ++ systemStopEffects s w) ∧
    (∀ d ∈ s.daemons, ∃ c rep, (w.bases d).shutdown = some c ∧
      snapshot (w.bases d).stats w = some rep ∧
      daemonStopEffects w d = [.closeSignal c, .callShutdown d, .logDaemonStats d rep]) ∧
    (∃ c q rep, s.shutdown = some c ∧ s.queue = some q ∧
      snapshot s.latency w = some rep ∧
      systemStopEffects s w = [.closeSignal c, .wgWait, .closeQueue q, .logLatency rep]) := by
  refine ⟨?_, ?_, systemStopEffects_ready h⟩
  · obtain ⟨w1, hrun, htr, -⟩ := StopDaemons_ready h
    exact ⟨w1, hrun, by rw [htr, stopEffects, List.append_assoc]⟩
  · intro d hd
    exact daemonStopEffects_ready (h.2.1 d hd) (h.2.2.2.1 d hd)

/-- Witness for C1 (amended): the coordinator with the daemons 4 and 7 is ready
to stop, and its StopDaemons call performs the twelve effects in order. -/
theorem StopDaemons_effects_witness :
    twoDaemons.1.readyToStop twoDaemons.2 ∧
    (∃ w1, twoDaemons.1.StopDaemons twoDaemons.2 = .returned w1 ∧
      w1.trace = twoDaemons.2.trace ++
        [.closeSignal 1, .callShutdown 4, .logDaemonStats 4 ⟨0, none, none, 0⟩,
         .closeSignal 2, .callShutdown 7, .logDaemonStats 7 ⟨0, none, none, 0⟩,
         .closeSignal 0, .wgWait, .closeQueue 0, .logLatency ⟨0, none, none, 0⟩]) :=
  ⟨by decide, (StopDaemons_effects twoDaemons.1 twoDaemons.2 (by decide)).1⟩

/-- C1 fails as stated: with the daemon 0 registered twice the registry is
[0, 0]; StopDaemons closes the signal of 0, invokes its hook, logs its snapshot
and then panics on the second close of the same signal, so the system signal is
not closed, the workers are not waited for and the queue is not closed. -/
theorem StopDaemons_effects_counterexample :
    twiceRegistered.1.daemons = [0, 0] ∧
    (twiceRegistered.1.StopDaemons twiceRegistered.2).panic? = some .closeOfClosedChannel ∧
    performedSince twiceRegistered.2.trace.length
        (twiceRegistered.1.StopDaemons twiceRegistered.2).world =
      [.closeSignal 2, .callShutdown 0, .logDaemonStats 0 ⟨0, none, none, 0⟩] ∧
    stopEffects twiceRegistered.1 twiceRegistered.2 =
      [.closeSignal 2, .callShutdown 0, .logDaemonStats 0 ⟨0, none, none, 0⟩,
       .closeSignal 2, .callShutdown 0, .logDaemonStats 0 ⟨0, none, none, 0⟩,
       .closeSignal 0, .wgWait, .closeQueue 0, .logLatency ⟨0, none, none, 0⟩] ∧
    ¬ ∃ w1, twiceRegistered.1.StopDaemons twiceRegistered.2 = .returned w1 ∧
      w1.trace = twiceRegistered.2.trace ++ stopEffects twiceRegistered.1 twiceRegistered.2 := by
  refine ⟨by decide, by decide, by decide, by decide, ?_⟩
  rintro ⟨w1, h, -⟩
  have hp : (twiceRegistered.1.StopDaemons twiceRegistered.2).panic? =
      some .closeOfClosedChannel := by decide
  rw [h] at hp
  simp [Outcome.panic?] at hp

/-! ### Closing every signal once -/

theorem performedSince_append (w w1 : World) (es : List Effect)
    (h : w1.trace = w.trace ++ es) : performedSince w.trace.length w1 = es := by
  simp [performedSince, h]

theorem count_daemonStopEffects (w : World) (ds : List DaemonRef)
    (hop : ∀ d ∈ ds, signalOpen w (w.bases d).shutdown = true)
    (hst : ∀ d ∈ ds, collectorAllocated w (w.bases d).stats = true) :
    (∀ c, List.count (Effect.closeSignal c) (ds.map (daemonStopEffects w)).flatten =
      @List.count (Option SignalRef) instBEqOfDecidableEq (some c)
        (ds.map fun d => (w.bases d).shutdown)) ∧
    (∀ q, List.count (Effect.closeQueue q) (ds.map (daemonStopEffects w)).flatten = 0) ∧
    shutdownCalls (ds.map (daemonStopEffects w)).flatten = ds := by
  induction ds with
  | nil => simp [shutdownCalls]
  | cons d ds ih =>
    obtain ⟨h1, h2, h3⟩ := ih (fun k hk => hop k (List.mem_cons_of_mem _ hk))
      (fun k hk => hst k (List.mem_cons_of_mem _ hk))
    obtain ⟨c, rep, hc, -, he⟩ := daemonStopEffects_ready (hop d (List.mem_cons_self _ _))
      (hst d (List.mem_cons_self _ _))
    refine ⟨?_, ?_, ?_⟩
    · intro k
      rw [List.map_cons, List.flatten_cons, List.count_append, h1 k, he, List.map_cons,
        List.count_cons, hc]
      by_cases hck : c = k
      · subst hck; simp [List.count_cons]; omega
      · have hkc : ¬ k = c := fun e => hck e.symm
        simp [List.count_cons, hck, hkc]
    · intro q
      rw [List.map_cons, List.flatten_cons, List.count_append, h2 q, he]
      simp [List.count_cons]
    · rw [List.map_cons, List.flatten_cons, he]
      simp [shutdownCalls, h3]

theorem closesEachOnce_of_ready {s : Satan} {w : World} (h : s.readyToStop w) :
    closesEachOnce s w := by
  obtain ⟨w1, hrun, htr, hcl, hsys, hq, -, -⟩ := StopDaemons_ready h
  obtain ⟨c0, q0, rep0, hc0, hq0, -, he0⟩ := systemStopEffects_ready h
  obtain ⟨hnd, hop, hne, hst, -, -, -⟩ := h
  obtain ⟨hcount, hqcount, -⟩ := count_daemonStopEffects w s.daemons hop hst
  have hdone : performedSince w.trace.length (s.StopDaemons w).world = stopEffects s w := by
    rw [hrun]; exact performedSince_append w w1 _ htr
  unfold closesEachOnce
  rw [hdone, hrun]
  refine ⟨rfl, ?_, ?_, hsys, ?_, hq⟩
  · intro d hd
    refine ⟨?_, hcl d hd⟩
    obtain ⟨c, hc, -⟩ := signalOpen_lt (hop d hd)
    have hcc : c ≠ c0 := fun e => hne d hd (by rw [hc, hc0, e])
    have hmem : some c ∈ s.daemons.map (fun d => (w.bases d).shutdown) :=
      List.mem_map.2 ⟨d, hd, hc⟩
    rw [hc]
    have hone := List.count_eq_one_of_mem hnd hmem
    have : ¬ c0 = c := fun e => hcc e.symm
    simp only [closeCount, stopEffects, List.count_append, hcount c, he0]
    rw [hone]
    simp [List.count_cons, this]
  · have hnot : some c0 ∉ s.daemons.map (fun d => (w.bases d).shutdown) := by
      intro hmem
      obtain ⟨d, hd, hsig⟩ := List.mem_map.1 hmem
      exact hne d hd (by rw [hsig, hc0])
    rw [hc0]
    have hzero : @List.count (Option SignalRef) instBEqOfDecidableEq (some c0)
        (s.daemons.map fun d => (w.bases d).shutdown) = 0 :=
      @List.count_eq_zero_of_not_mem _ instBEqOfDecidableEq _ _ _ hnot
    simp only [closeCount, stopEffects, List.count_append, hcount c0, he0]
    rw [hzero]
    simp [List.count_cons]
  · rw [hq0]
    simp only [queueCloseCount, stopEffects, List.count_append, hqcount q0, he0]
    simp [List.count_cons]

/-- C8 (amended): for every sequence of AddDaemon calls that registers pairwise
distinct daemons on a fresh coordinator, a single StopDaemons call returns
without a double close, closes the private signal of each registered daemon
exactly once and leaves none open, and closes the system signal and the queue
exactly once each. -/
theorem StopDaemons_closes_once (ds : List DaemonRef) (w0 : World) (hnd : ds.Nodup) :
    closesEachOnce (registered ds w0).1 (registered ds w0).2 :=
  closesEachOnce_of_ready (registered_ready ds w0 hnd)

/-- Witness for C8 (amended): the daemons 3 and 5 are distinct, and stopping the
coordinator they were registered on closes each signal once. -/
theorem StopDaemons_closes_once_witness :
    [3, 5].Nodup ∧ closesEachOnce daemonPair.1 daemonPair.2 :=
  ⟨by decide, StopDaemons_closes_once [3, 5] emptyWorld (by decide)⟩

/-- C8 fails as stated: after AddDaemon(0), AddDaemon(0) the single StopDaemons
call ends in the fatal second close of the signal of daemon 0; the signal the
first AddDaemon allocated, the system signal and the queue are never closed. -/
theorem StopDaemons_closes_once_counterexample :
    twiceRegistered.1.daemons = [0, 0] ∧
    (twiceRegistered.2.bases 0).shutdown = some 2 ∧
    twiceRegistered.1.shutdown = some 0 ∧
    (twiceRegistered.1.StopDaemons twiceRegistered.2).panic? = some .closeOfClosedChannel ∧
    (twiceRegistered.1.StopDaemons twiceRegistered.2).world.signals = [false, false, true] ∧
    closeCount twiceRegistered.1.shutdown
      (performedSince twiceRegistered.2.trace.length
        (twiceRegistered.1.StopDaemons twiceRegistered.2).world) = 0 ∧
    queueCloseCount twiceRegistered.1.queue
      (performedSince twiceRegistered.2.trace.length
        (twiceRegistered.1.StopDaemons twiceRegistered.2).world) = 0 ∧
    queueOpen (twiceRegistered.1.StopDaemons twiceRegistered.2).world
      twiceRegistered.1.queue = true ∧
    ¬ closesEachOnce twiceRegistered.1 twiceRegistered.2 := by
  refine ⟨by decide, by decide, by decide, by decide, by decide, by decide, by decide,
    by decide, ?_⟩
  intro h
  have hp : (twiceRegistered.1.StopDaemons twiceRegistered.2).panic? =
      some .closeOfClosedChannel := by decide
  rw [h.1] at hp
  cases hp

/-! ### The order of the Shutdown hooks -/

theorem shutdownCalls_append (xs ys : List Effect) :
    shutdownCalls (xs ++ ys) = shutdownCalls xs ++ shutdownCalls ys := by
  induction xs with
  | nil => rfl
  | cons e xs ih => cases e <;> simp [shutdownCalls, ih]

theorem closeSignal_cases (c : Option SignalRef) (w : World) :
    (∃ p, closeSignal c w = .panicked p w) ∨
    (∃ k, closeSignal c w =
      .returned { w.emit (.closeSignal k) with signals := w.signals.set k true }) := by
  cases c with
  | none => exact Or.inl ⟨_, rfl⟩
  | some k =>
    rcases hget : w.signals[k]? with _ | b
    · exact Or.inl ⟨.closeOfNilChannel, by simp [closeSignal, hget]⟩
    · cases b
      · exact Or.inr ⟨k, by simp [closeSignal, hget]⟩
      · exact Or.inl ⟨.closeOfClosedChannel, by simp [closeSignal, hget]⟩

theorem closeQueue_cases (q : Option QueueRef) (w : World) :
    (∃ p, closeQueue q w = .panicked p w) ∨
    (∃ k, closeQueue q w =
      .returned { w.emit (.closeQueue k) with queues := w.queues.set k ⟨true, []⟩ }) := by
  cases q with
  | none => exact Or.inl ⟨_, rfl⟩
  | some k =>
    rcases hget : w.queues[k]? with _ | st
    · exact Or.inl ⟨.closeOfNilChannel, by simp [closeQueue, hget]⟩
    · obtain ⟨cl, sq⟩ := st
      cases cl
      · exact Or.inr ⟨k, by simp [closeQueue, hget]⟩
      · exact Or.inl ⟨.closeOfClosedChannel, by simp [closeQueue, hget]⟩

theorem stopDaemon_calls (d : DaemonRef) (w : World) :
    ∃ es, (stopDaemon d w).world.trace = w.trace ++ es ∧
      ((stopDaemon d w).isReturned = true → shutdownCalls es = [d]) ∧
      ((stopDaemon d w).isReturned = false →
        shutdownCalls es = [] ∨ shutdownCalls es = [d]) := by
  unfold stopDaemon
  rcases closeSignal_cases (w.bases d).shutdown w with ⟨p, h⟩ | ⟨c, h⟩
  · rw [h]
    exact ⟨[], by simp [Outcome.andThen, Outcome.world, Outcome.isReturned, shutdownCalls]⟩
  · rw [h]
    simp only [Outcome.andThen]
    split
    · exact ⟨[.closeSignal c, .callShutdown d],
        by simp [Outcome.world, Outcome.isReturned, shutdownCalls, World.emit]⟩
    · rename_i rep _
      exact ⟨[.closeSignal c, .callShutdown d, .logDaemonStats d rep],
        by simp [Outcome.world, Outcome.isReturned, shutdownCalls, World.emit]⟩

theorem stopLoop_calls (ds : List DaemonRef) (w : World) :
    ∃ es, (stopLoop ds w).world.trace = w.trace ++ es ∧
      (∃ rest, shutdownCalls es ++ rest = ds) ∧
      ((stopLoop ds w).isReturned = true → shutdownCalls es = ds) := by
  induction ds generalizing w with
  | nil => exact ⟨[], by simp [stopLoop, Outcome.world, shutdownCalls]⟩
  | cons d ds ih =>
    obtain ⟨es, htr, hret, hpan⟩ := stopDaemon_calls d w
    cases hrun : stopDaemon d w with
    | panicked p w1 =>
      rw [hrun] at htr hpan
      refine ⟨es, by simpa [stopLoop, hrun, Outcome.andThen] using htr, ?_,
        by simp [stopLoop, hrun, Outcome.andThen, Outcome.isReturned]⟩
      rcases hpan rfl with h | h
      · exact ⟨d :: ds, by simp [h]⟩
      · exact ⟨ds, by simp [h]⟩
    | returned w1 =>
      rw [hrun] at htr hret
      have hd := hret rfl
      obtain ⟨es1, htr1, ⟨rest, hrest⟩, hret1⟩ := ih w1
      refine ⟨es ++ es1, ?_, ⟨rest, ?_⟩, ?_⟩
      · simp only [stopLoop, hrun, Outcome.andThen]
        rw [htr1]
        simp only [Outcome.world] at htr
        rw [htr, List.append_assoc]
      · rw [shutdownCalls_append, hd, List.append_assoc, hrest]; rfl
      · intro h
        simp only [stopLoop, hrun, Outcome.andThen] at h
        rw [shutdownCalls_append, hd, hret1 h]; rfl

theorem stopSystem_calls (s : Satan) (w : World) :
    ∃ es, (s.stopSystem w).world.trace = w.trace ++ es ∧ shutdownCalls es = [] := by
  unfold Satan.stopSystem
  rcases closeSignal_cases s.shutdown w with ⟨p, h⟩ | ⟨c, h⟩
  · rw [h]
    exact ⟨[], by simp [Outcome.andThen, Outcome.world, shutdownCalls]⟩
  · rw [h]
    simp only [Outcome.andThen]
    rcases closeQueue_cases s.queue
      (World.emit { w.emit (.closeSignal c) with signals := w.signals.set c true } .wgWait)
      with ⟨p, hq⟩ | ⟨q, hq⟩
    · rw [hq]
      exact ⟨[.closeSignal c, .wgWait], by simp [Outcome.world, shutdownCalls, World.emit]⟩
    · rw [hq]
      simp only []
      split
      · exact ⟨[.closeSignal c, .wgWait, .closeQueue q],
          by simp [Outcome.world, shutdownCalls, World.emit]⟩
      · rename_i rep _
        exact ⟨[.closeSignal c, .wgWait, .closeQueue q, .logLatency rep],
          by simp [Outcome.world, shutdownCalls, World.emit]⟩

theorem StopDaemons_calls (s : Satan) (w : World) :
    (∃ rest, shutdownCalls (performedSince w.trace.length (s.StopDaemons w).world) ++ rest
      = s.daemons) ∧
    ((s.StopDaemons w).isReturned = true →
      shutdownCalls (performedSince w.trace.length (s.StopDaemons w).world) = s.daemons) := by
  obtain ⟨es, htr, hpre, hret⟩ := stopLoop_calls s.daemons w
  unfold Satan.StopDaemons
  cases hrun : stopLoop s.daemons w with
  | panicked p w1 =>
    rw [hrun] at htr
    simp only [Outcome.andThen, Outcome.world, Outcome.isReturned]
    simp only [Outcome.world] at htr
    rw [performedSince_append w w1 es htr]
    exact ⟨hpre, by simp⟩
  | returned w1 =>
    rw [hrun] at htr hret
    simp only [Outcome.world] at htr
    obtain ⟨es2, htr2, hcalls2⟩ := stopSystem_calls s w1
    simp only [Outcome.andThen]
    have hall : (s.stopSystem w1).world.trace = w.trace ++ (es ++ es2) := by
      rw [htr2, htr, List.append_assoc]
    rw [performedSince_append w _ _ hall, shutdownCalls_append, hcalls2, List.append_nil]
    exact ⟨hpre, fun _ => hret rfl⟩

/-- C2 (amended): AddDaemon(d) appends d at the end of the registry and leaves
every earlier entry at its position; for every sequence ds registered on a
coordinator returned by Summon (whose registry is empty) the registry is exactly
ds, and the Shutdown hooks StopDaemons invokes are an initial segment of ds, in
that order; when the daemons of ds are pairwise distinct StopDaemons returns and
has invoked the hooks of all of ds in registration order. -/
theorem registry_order (ds : List DaemonRef) (w0 : World) :
    (∀ (s : Satan) (d : DaemonRef) (w : World),
      (s.AddDaemon d w).1.daemons = s.daemons ++ [d] ∧
      (s.AddDaemon d w).1.daemons[s.daemons.length]? = some d ∧
      ∀ i, i < s.daemons.length → (s.AddDaemon d w).1.daemons[i]? = s.daemons[i]?) ∧
    (Summon w0).1.daemons = [] ∧
    (registered ds w0).1.daemons = ds ∧
    (∃ rest, shutdownCalls (performedSince (registered ds w0).2.trace.length
      ((registered ds w0).1.StopDaemons (registered ds w0).2).world) ++ rest = ds) ∧
    (ds.Nodup →
      ((registered ds w0).1.StopDaemons (registered ds w0).2).panic? = none ∧
      shutdownCalls (performedSince (registered ds w0).2.trace.length
        ((registered ds w0).1.StopDaemons (registered ds w0).2).world) = ds) := by
  refine ⟨?_, rfl, registered_daemons ds w0, ?_, ?_⟩
  · intro s d w
    refine ⟨rfl, ?_, ?_⟩
    · rw [AddDaemon_daemons]; simp
    · intro i hi
      rw [AddDaemon_daemons, List.getElem?_append_left hi]
  · have := (StopDaemons_calls (registered ds w0).1 (registered ds w0).2).1
    rw [registered_daemons] at this
    exact this
  · intro hnd
    obtain ⟨w1, hrun, -⟩ := StopDaemons_ready (registered_ready ds w0 hnd)
    have := (StopDaemons_calls (registered ds w0).1 (registered ds w0).2).2
    rw [registered_daemons, hrun] at this
    rw [hrun]
    exact ⟨rfl, this rfl⟩

/-- Witness for C2 (amended): the daemons 4 and 7 are distinct; their registry is
[4, 7] and StopDaemons invokes the hook of 4 and then the hook of 7. -/
theorem registry_order_witness :
    [4, 7].Nodup ∧ twoDaemons.1.daemons = [4, 7] ∧
    (twoDaemons.1.StopDaemons twoDaemons.2).panic? = none ∧
    shutdownCalls (performedSince twoDaemons.2.trace.length
      (twoDaemons.1.StopDaemons twoDaemons.2).world) = [4, 7] :=
  ⟨by decide, (registry_order [4, 7] emptyWorld).2.2.1,
    (registry_order [4, 7] emptyWorld).2.2.2.2 (by decide)⟩

/-- C2 fails as stated: after registering 0, 1, 0, 2 the registry is
[0, 1, 0, 2], but StopDaemons invokes the hooks of 0 and 1 only and then panics
on the second close of the signal of 0; the daemon 2 is never shut down. -/
theorem registry_order_counterexample :
    repeatedDaemon.1.daemons = [0, 1, 0, 2] ∧
    (repeatedDaemon.1.StopDaemons repeatedDaemon.2).panic? = some .closeOfClosedChannel ∧
    shutdownCalls (performedSince repeatedDaemon.2.trace.length
      (repeatedDaemon.1.StopDaemons repeatedDaemon.2).world) = [0, 1] ∧
    ¬ shutdownCalls (performedSince repeatedDaemon.2.trace.length
      (repeatedDaemon.1.StopDaemons repeatedDaemon.2).world) = repeatedDaemon.1.daemons := by
  decide

/-! ### The task branch of the worker loop -/

theorem samplesOf_set (w w1 : World) (r k : StatsRef) (st : statistics)
    (h : r < w.stats.length) (hs : w1.stats = w.stats.set r st) :
    samplesOf w1 (some k) = if r = k then st.samples else samplesOf w (some k) := by
  by_cases hrk : r = k
  · subst hrk
    simp [samplesOf, hs, List.getElem?_set_self h]
  · simp [samplesOf, hs, List.getElem?_set_ne hrk, hrk]

theorem samplesOf_allocated (w : World) (r : StatsRef) (h : r < w.stats.length) :
    samplesOf w (some r) = (w.stats[r]).samples := by
  simp [samplesOf, List.getElem?_eq_getElem h]

theorem statsAdd_allocated {w : World} {r : StatsRef} (x : Int) (h : r < w.stats.length) :
    statsAdd (some r) x w = .returned { w.emit (.addSample r x) with
      stats := w.stats.set r ⟨(w.stats[r]).samples ++ [x]⟩ } := by
  simp [statsAdd, List.getElem?_eq_getElem h]

theorem statsAdd_nil {w : World} {r : Option StatsRef} (x : Int)
    (h : ∀ k, r = some k → ¬ k < w.stats.length) :
    statsAdd r x w = .panicked .nilDereference w := by
  cases r with
  | none => rfl
  | some k =>
    have hk := h k rfl
    simp [statsAdd, List.getElem?_eq_none (Nat.le_of_not_lt hk)]

theorem Outcome.eq_returned {o : Outcome} (h : o.panic? = none) :
    o = .returned o.world := by
  cases o with
  | returned w => rfl
  | panicked p w => simp [Outcome.panic?] at h

/-- What processTask does to the heap, in full: it always returns. -/
theorem processTask_spec (s : Satan) (t : task) (w : World) :
    (s.processTask t w).panic? = none ∧
    (s.processTask t w).world.trace = w.trace ++ .callActor t.actor ::
      (match t.actor.failure with
        | some v => [.logRecovered t.daemon (.actorFailure v)]
        | none =>
          match (w.bases t.daemon).stats with
          | some r =>
            if r < w.stats.length then
              [.addSample r (wrapInt64 (UnixNano (w.clock (w.tick + 1)) - UnixNano (w.clock w.tick)))]
            else [.logRecovered t.daemon .nilDereference]
          | none => [.logRecovered t.daemon .nilDereference]) ∧
    (s.processTask t w).world.signals = w.signals ∧
    (s.processTask t w).world.queues = w.queues ∧
    (s.processTask t w).world.bases = w.bases ∧
    (s.processTask t w).world.clock = w.clock ∧
    (s.processTask t w).world.stats.length = w.stats.length ∧
    (∀ k, samplesOf (s.processTask t w).world (some k) = samplesOf w (some k) ++
      if t.actor.failure = none ∧ (w.bases t.daemon).stats = some k ∧ k < w.stats.length
      then [wrapInt64 (UnixNano (w.clock (w.tick + 1)) - UnixNano (w.clock w.tick))]
      else []) := by
  cases hf : t.actor.failure with
  | some v =>
    simp [Satan.processTask, processTaskBody, timeNow, callActor, hf, runDeferred,
      handlePanic, Outcome.world, World.emit, Outcome.panic?, Outcome.andThen, samplesOf]
  | none =>
    by_cases hown : ∃ r, (w.bases t.daemon).stats = some r ∧ r < w.stats.length
    · obtain ⟨r, hr, hrlt⟩ := hown
      simp only [Satan.processTask, processTaskBody, timeNow, callActor, hf, World.emit,
        Outcome.andThen, hr]
      rw [statsAdd_allocated _ (by simpa using hrlt)]
      simp only [runDeferred, handlePanic, Outcome.world, World.emit, Outcome.panic?, hrlt,
        if_true]
      refine ⟨trivial, by simp, trivial, trivial, trivial, trivial, by simp, ?_⟩
      intro k
      rw [samplesOf_set w _ r k _ hrlt rfl]
      by_cases hrk : r = k
      · subst hrk; simp [samplesOf_allocated w r hrlt, hrlt]
      · have hkr : ¬ (some r = some k) := fun e => hrk (Option.some.inj e)
        simp [hrk, hkr]
    · have hnil : ∀ (x : Int) (w3 : World), w3.stats.length = w.stats.length →
          statsAdd (w.bases t.daemon).stats x w3 = .panicked .nilDereference w3 := by
        intro x w3 hlen
        apply statsAdd_nil
        intro k hk hklt
        exact hown ⟨k, hk, by rw [← hlen]; exact hklt⟩
      have heff : (match (w.bases t.daemon).stats with
          | some r =>
            if r < w.stats.length then
              [Effect.addSample r
                (wrapInt64 (UnixNano (w.clock (w.tick + 1)) - UnixNano (w.clock w.tick)))]
            else [Effect.logRecovered t.daemon .nilDereference]
          | none => [Effect.logRecovered t.daemon .nilDereference]) =
          [Effect.logRecovered t.daemon .nilDereference] := by
        cases hr : (w.bases t.daemon).stats with
        | none => rfl
        | some r =>
          have : ¬ r < w.stats.length := fun h => hown ⟨r, hr, h⟩
          simp [this]
      have hsam : ∀ k, ¬ ((w.bases t.daemon).stats = some k ∧ k < w.stats.length) :=
        fun k h => hown ⟨k, h⟩
      simp only [Satan.processTask, processTaskBody, timeNow, callActor, hf, World.emit,
        Outcome.andThen]
      rw [hnil]
      · simp only [runDeferred, handlePanic, Outcome.world, World.emit, Outcome.panic?, heff]
        refine ⟨trivial, by simp, trivial, trivial, trivial, trivial, trivial, ?_⟩
        intro k
        simp [samplesOf, hsam k]
      · rfl

/-- What the task branch does to the heap, in full. -/
theorem taskBranch_spec (s : Satan) (t : task) (w : World) (l : StatsRef)
    (hl : s.latency = some l) (hlt : l < w.stats.length) :
    (s.taskBranch t w).panic? = none ∧
    (s.taskBranch t w).world.trace = w.trace ++ taskEffects l t w ∧
    (s.taskBranch t w).world.signals = w.signals ∧
    (s.taskBranch t w).world.queues = w.queues ∧
    (s.taskBranch t w).world.bases = w.bases ∧
    (s.taskBranch t w).world.clock = w.clock ∧
    (s.taskBranch t w).world.stats.length = w.stats.length ∧
    (∀ r, samplesOf (s.taskBranch t w).world (some r) =
      samplesOf w (some r) ++ taskSamples l t w r) := by
  have hrun : s.taskBranch t w = s.processTask t
      { World.emit { w with tick := w.tick + 1 } (.addSample l (latencySample t w)) with
        stats := List.set w.stats l ⟨(w.stats[l]).samples ++ [latencySample t w]⟩ } := by
    simp only [Satan.taskBranch, timeNow, hl, Outcome.andThen, latencySample]
    rw [statsAdd_allocated (w := { w with tick := w.tick + 1 }) _ hlt]
  obtain ⟨h1, h2, h3, h4, h5, h6, h7, h8⟩ := processTask_spec s t
      { World.emit { w with tick := w.tick + 1 } (.addSample l (latencySample t w)) with
        stats := List.set w.stats l ⟨(w.stats[l]).samples ++ [latencySample t w]⟩ }
  rw [hrun]
  refine ⟨h1, ?_, h3, h4, h5, h6, ?_, ?_⟩
  · rw [h2]
    simp only [World.emit, taskEffects, afterActorEffects, durationSample, List.length_set]
    simp
  · rw [h7]; simp
  · intro k
    rw [h8 k, samplesOf_set w _ l k _ hlt rfl]
    simp only [World.emit, taskSamples, durationSample, List.length_set]
    by_cases hj : l = k
    · subst hj; simp [samplesOf_allocated w l hlt]
    · simp [hj]

/-! ### Passes of the worker loop -/

theorem actorCalls_append (xs ys : List Effect) :
    actorCalls (xs ++ ys) = actorCalls xs ++ actorCalls ys := by
  induction xs with
  | nil => rfl
  | cons e xs ih => cases e <;> simp [actorCalls, ih]

theorem actorCalls_taskEffects (l : StatsRef) (t : task) (w : World) :
    actorCalls (taskEffects l t w) = [t.actor] := by
  unfold taskEffects afterActorEffects
  cases t.actor.failure with
  | some v => simp [actorCalls]
  | none =>
    cases (w.bases t.daemon).stats with
    | none => simp [actorCalls]
    | some r => by_cases h : r < w.stats.length <;> simp [actorCalls, h]

theorem length_taskSamples (l : StatsRef) (t : task) (w : World) (r : StatsRef) :
    (taskSamples l t w r).length =
      (if l = r then 1 else 0) + (if recordsDuration w r t = true then 1 else 0) := by
  unfold taskSamples recordsDuration
  by_cases h1 : l = r <;>
    by_cases h2 : t.actor.failure = none ∧ (w.bases t.daemon).stats = some r ∧
      r < w.stats.length <;> simp [h1, h2]

theorem workerIter_task (s : Satan) (w : World) (q : QueueRef) (cl : Bool) (t : task)
    (rest : List task) (l : StatsRef) (hq : s.queue = some q)
    (hget : w.queues[q]? = some ⟨cl, t :: rest⟩)
    (hl : s.latency = some l) (hlt : l < w.stats.length) :
    ∃ w1, s.workerIter w = .again w1 ∧
      w1.trace = w.trace ++ taskEffects l t w ∧
      w1.signals = w.signals ∧ w1.queues = w.queues.set q ⟨cl, rest⟩ ∧
      w1.bases = w.bases ∧ w1.clock = w.clock ∧ w1.stats.length = w.stats.length ∧
      (∀ r, samplesOf w1 (some r) = samplesOf w (some r) ++ taskSamples l t w r) := by
  obtain ⟨h1, h2, h3, h4, h5, h6, h7, h8⟩ := taskBranch_spec s t
    { w with queues := w.queues.set q ⟨cl, rest⟩ } l hl hlt
  refine ⟨(s.taskBranch t { w with queues := w.queues.set q ⟨cl, rest⟩ }).world,
    ?_, h2, h3, h4, h5, h6, h7, h8⟩
  have hrecv : tryRecv s.queue w =
      some (some t, { w with queues := w.queues.set q ⟨cl, rest⟩ }) := by
    simp [tryRecv, hq, hget]
  simp only [Satan.workerIter, hrecv]
  rw [Outcome.eq_returned h1]
  rfl

theorem workerRounds_drain (s : Satan) (q : QueueRef) (l : StatsRef)
    (hq : s.queue = some q) (hl : s.latency = some l) (ts : List task) :
    ∀ (w : World) (cl : Bool) (rest : List task),
      w.queues[q]? = some ⟨cl, ts ++ rest⟩ → l < w.stats.length →
      ∃ w1 es, workerRounds ts.length s w = .again w1 ∧
        w1.queues[q]? = some ⟨cl, rest⟩ ∧
        w1.trace = w.trace ++ es ∧ actorCalls es = ts.map (fun t => t.actor) ∧
        w1.signals = w.signals ∧ w1.bases = w.bases ∧ w1.clock = w.clock ∧
        w1.stats.length = w.stats.length ∧
        (∀ r, sampleCount w1 (some r) = sampleCount w (some r) +
          (if l = r then ts.length else 0) + (ts.filter (recordsDuration w r)).length) := by
  induction ts with
  | nil =>
    intro w cl rest hget hlt
    exact ⟨w, [], rfl, hget, by simp, rfl, rfl, rfl, rfl, rfl, by simp⟩
  | cons t ts ih =>
    intro w cl rest hget hlt
    obtain ⟨w1, hrun, htr, hsig, hqs, hb, hc, hlen, hsam⟩ :=
      workerIter_task s w q cl t (ts ++ rest) l hq hget hl hlt
    have hqlt : q < w.queues.length := by
      rcases Nat.lt_or_ge q w.queues.length with h | h
      · exact h
      · rw [List.getElem?_eq_none h] at hget; cases hget
    have hget1 : w1.queues[q]? = some ⟨cl, ts ++ rest⟩ := by
      rw [hqs, List.getElem?_set_self hqlt]
    obtain ⟨w2, es, hrun2, hget2, htr2, hcalls, hsig2, hb2, hc2, hlen2, hsam2⟩ :=
      ih w1 cl rest hget1 (by rw [hlen]; exact hlt)
    refine ⟨w2, taskEffects l t w ++ es, ?_, hget2, ?_, ?_, hsig2.trans hsig, hb2.trans hb,
      hc2.trans hc, hlen2.trans hlen, ?_⟩
    · simp only [List.length_cons, workerRounds, hrun]; exact hrun2
    · rw [htr2, htr, List.append_assoc]
    · rw [actorCalls_append, actorCalls_taskEffects, hcalls]; rfl
    · intro r
      have hrec : recordsDuration w1 r = recordsDuration w r := by
        funext x; simp [recordsDuration, hb, hlen]
      rw [hsam2 r, hrec]
      simp only [sampleCount, hsam r, List.length_append, length_taskSamples,
        List.length_cons, List.filter_cons]
      by_cases h1 : l = r <;> by_cases h2 : recordsDuration w r t = true <;>
        simp [h1, h2] <;> omega

theorem collectorAllocated_some {w : World} {r : Option StatsRef}
    (h : collectorAllocated w r = true) : ∃ k, r = some k ∧ k < w.stats.length := by
  cases r with
  | none => simp [collectorAllocated] at h
  | some k => exact ⟨k, rfl, by simpa [collectorAllocated] using h⟩

/-! ### Registration keeps the collectors private -/

theorem Summon_private (w : World) : (Summon w).1.collectorsPrivate (Summon w).2 := by
  refine ⟨?_, ?_, ?_, ?_⟩ <;>
    simp [Summon, makeQueue, makeSignal, newStatistics, collectorAllocated]

theorem AddDaemon_private {s : Satan} {w : World} (d : DaemonRef)
    (h : s.collectorsPrivate w) :
    (s.AddDaemon d w).1.collectorsPrivate (s.AddDaemon d w).2 := by
  obtain ⟨hlat, hall, hne, hinj⟩ := h
  obtain ⟨l, hl, hlt⟩ := collectorAllocated_some hlat
  have hnew : ((s.AddDaemon d w).2.bases d).stats = some w.stats.length := by
    rw [AddDaemon_bases_self]
  have hold : ∀ k, k ≠ d → ((s.AddDaemon d w).2.bases k).stats = (w.bases k).stats := by
    intro k hk; rw [AddDaemon_bases_ne s w hk]
  have hmem : ∀ k, k ∈ (s.AddDaemon d w).1.daemons → k ≠ d → k ∈ s.daemons := by
    intro k hk hkd
    rw [AddDaemon_daemons, List.mem_append, List.mem_singleton] at hk
    rcases hk with hk | hk
    · exact hk
    · exact absurd hk hkd
  have hfresh : ∀ k, k ∈ s.daemons → (w.bases k).stats ≠ some w.stats.length := by
    intro k hk e
    obtain ⟨r, hr, hrlt⟩ := collectorAllocated_some (hall k hk)
    rw [hr] at e
    have e1 := Option.some.inj e
    rw [e1] at hrlt
    exact Nat.lt_irrefl _ hrlt
  refine ⟨collectorAllocated_grow (AddDaemon_stats s d w) hlat, ?_, ?_, ?_⟩
  · intro k hk
    by_cases hkd : k = d
    · subst hkd
      rw [hnew]
      simp [collectorAllocated, AddDaemon_stats]
    · rw [hold k hkd]
      exact collectorAllocated_grow (AddDaemon_stats s d w) (hall k (hmem k hk hkd))
  · intro k hk
    show ((s.AddDaemon d w).2.bases k).stats ≠ s.latency
    by_cases hkd : k = d
    · subst hkd
      rw [hnew, hl]
      intro e
      have e1 := Option.some.inj e
      rw [← e1] at hlt
      exact Nat.lt_irrefl _ hlt
    · rw [hold k hkd]
      exact hne k (hmem k hk hkd)
  · intro k1 hk1 k2 hk2 e
    by_cases h1 : k1 = d
    · by_cases h2 : k2 = d
      · rw [h1, h2]
      · rw [h1, hnew, hold k2 h2] at e
        exact absurd e.symm (hfresh k2 (hmem k2 hk2 h2))
    · by_cases h2 : k2 = d
      · rw [h2, hnew, hold k1 h1] at e
        exact absurd e (hfresh k1 (hmem k1 hk1 h1))
      · rw [hold k1 h1, hold k2 h2] at e
        exact hinj k1 (hmem k1 hk1 h1) k2 (hmem k2 hk2 h2) e

theorem AddDaemons_private (ds : List DaemonRef) {s : Satan} {w : World}
    (h : s.collectorsPrivate w) :
    (AddDaemons ds s w).1.collectorsPrivate (AddDaemons ds s w).2 := by
  induction ds generalizing s w with
  | nil => exact h
  | cons d ds ih => simp only [AddDaemons]; exact ih (AddDaemon_private d h)

/-- Whatever daemons are registered on a fresh coordinator, in whatever order
and however often, the collectors are private. -/
theorem registered_private (ds : List DaemonRef) (w : World) :
    (registered ds w).1.collectorsPrivate (registered ds w).2 := by
  simp only [registered]
  exact AddDaemons_private ds (Summon_private w)

/-! ### Counting executions and samples -/

/-- C4: for every sequence of tasks with actors that return, offered on the
queue of a coordinator whose collectors are private and owned by registered
daemons, as many passes of the worker loop as there are tasks dequeue them all,
invoke every actor exactly once in queue order, add exactly one sample per task
to the system latency collector, and add to the collector of each daemon exactly
as many samples as the sequence holds tasks of that daemon. -/
theorem worker_counts (s : Satan) (w : World) (q : QueueRef) (cl : Bool) (ts : List task)
    (hq : s.queue = some q) (hget : w.queues[q]? = some ⟨cl, ts⟩)
    (hpriv : s.collectorsPrivate w)
    (hown : ∀ t ∈ ts, t.daemon ∈ s.daemons)
    (hok : ∀ t ∈ ts, t.actor.failure = none) :
    ∃ w1, workerRounds ts.length s w = .again w1 ∧
      w1.queues[q]? = some ⟨cl, []⟩ ∧
      actorCalls (performedSince w.trace.length w1) = ts.map (fun t => t.actor) ∧
      sampleCount w1 s.latency = sampleCount w s.latency + ts.length ∧
      ∀ d ∈ s.daemons, sampleCount w1 (w.bases d).stats =
        sampleCount w (w.bases d).stats + (ts.filter fun t => t.daemon = d).length := by
  obtain ⟨hlat, hall, hne, hinj⟩ := hpriv
  obtain ⟨l, hl, hlt⟩ := collectorAllocated_some hlat
  obtain ⟨w1, es, hrun, hget1, htr, hcalls, -, -, -, -, hcount⟩ :=
    workerRounds_drain s q l hq hl ts w cl [] (by simpa using hget) hlt
  refine ⟨w1, hrun, hget1, ?_, ?_, ?_⟩
  · rw [performedSince_append w w1 es htr, hcalls]
  · rw [hl, hcount l]
    have hnone : ts.filter (recordsDuration w l) = [] := by
      rw [List.filter_eq_nil_iff]
      intro t ht hrec
      simp only [recordsDuration, decide_eq_true_eq] at hrec
      exact hne t.daemon (hown t ht) (by rw [hrec.2.1, hl])
    simp [hnone]
  · intro d hd
    obtain ⟨r, hr, hrlt⟩ := collectorAllocated_some (hall d hd)
    have hlr : l ≠ r := fun e => hne d hd (by rw [hr, hl, e])
    have hfilter : ts.filter (recordsDuration w r) = ts.filter fun t => t.daemon = d := by
      apply List.filter_congr
      intro t ht
      have hiff : (w.bases t.daemon).stats = some r ↔ t.daemon = d := by
        constructor
        · intro h; exact hinj t.daemon (hown t ht) d hd (by rw [h, hr])
        · intro h; rw [h, hr]
      simp [recordsDuration, hok t ht, hiff, hrlt]
    rw [hr, hcount r, hfilter]
    simp [hlr]

/-- Witness for C4: the daemon 1 with five tasks and the daemon 2 with three:
after eight passes the system collector holds eight samples, the collector of
daemon 1 five and the collector of daemon 2 three. -/
theorem worker_counts_witness :
    ∃ w1, workerRounds 8 twoProducers.1 twoProducers.2 = .again w1 ∧
      actorCalls (performedSince twoProducers.2.trace.length w1) =
        eightTasks.map (fun t => t.actor) ∧
      sampleCount w1 twoProducers.1.latency = 8 ∧
      sampleCount w1 (twoProducers.2.bases 1).stats = 5 ∧
      sampleCount w1 (twoProducers.2.bases 2).stats = 3 := by
  obtain ⟨w1, h1, -, h3, h4, h5⟩ := worker_counts twoProducers.1 twoProducers.2 0 false
    eightTasks (by decide) (by decide) (by decide) (by decide) (by decide)
  exact ⟨w1, h1, h3, h4, h5 1 (by decide), h5 2 (by decide)⟩

/-! ### One pass of the worker loop -/

theorem tryRecv_signals {q : Option QueueRef} {w w0 : World} {ot : Option task}
    (h : tryRecv q w = some (ot, w0)) : w0.signals = w.signals := by
  unfold tryRecv at h
  cases q with
  | none => simp at h
  | some k =>
    simp only [] at h
    rcases hget : w.queues[k]? with _ | st
    · simp [hget] at h
    · obtain ⟨cl, sq⟩ := st
      rw [hget] at h
      cases sq with
      | nil =>
        cases cl
        · simp at h
        · simp only [Option.some.injEq, Prod.mk.injEq] at h
          rw [← h.2]
      | cons t rest =>
        simp only [Option.some.injEq, Prod.mk.injEq] at h
        rw [← h.2]

theorem taskBranch_signals (s : Satan) (t : task) (w : World) :
    (s.taskBranch t w).world.signals = w.signals := by
  by_cases h : ∃ l, s.latency = some l ∧ l < w.stats.length
  · obtain ⟨l, hl, hlt⟩ := h
    exact (taskBranch_spec s t w l hl hlt).2.2.1
  · have hnil : ∀ x, statsAdd s.latency x { w with tick := w.tick + 1 } =
        .panicked .nilDereference { w with tick := w.tick + 1 } := by
      intro x
      apply statsAdd_nil
      intro k hk hklt
      exact h ⟨k, hk, hklt⟩
    simp [Satan.taskBranch, timeNow, hnil, Outcome.andThen, Outcome.world]

theorem workerIter_signals {s : Satan} {w w1 : World} (h : s.workerIter w = .again w1) :
    w1.signals = w.signals := by
  unfold Satan.workerIter at h
  rcases hrecv : tryRecv s.queue w with _ | ⟨ot, w0⟩
  · rw [hrecv] at h
    simp only [] at h
    split at h
    · cases h
    · cases h; rfl
  · rw [hrecv] at h
    cases ot with
    | none => simp at h
    | some t =>
      simp only [] at h
      have hs := taskBranch_signals s t w0
      cases hb : s.taskBranch t w0 with
      | returned w2 =>
        rw [hb] at h hs
        simp only [IterResult.again.injEq] at h
        rw [← h, ← tryRecv_signals hrecv]
        exact hs
      | panicked p w2 => rw [hb] at h; simp at h

theorem workerRounds_unfired (s : Satan) (fuel : Nat) :
    ∀ w, signalFired s.shutdown w = false → ∀ w1, workerRounds fuel s w ≠ .exit w1 := by
  induction fuel with
  | zero => intro w _ w1 h; simp [workerRounds] at h
  | succ n ih =>
    intro w hw w1 h
    simp only [workerRounds] at h
    cases hit : s.workerIter w with
    | again w2 =>
      rw [hit] at h
      have hsig := workerIter_signals hit
      have hw2 : signalFired s.shutdown w2 = false := by
        cases hc : s.shutdown <;> simp [signalFired, hc, hsig] at hw ⊢
        exact hw
      exact ih w2 hw2 w1 h
    | exit w2 =>
      unfold Satan.workerIter at hit
      rcases hrecv : tryRecv s.queue w with _ | ⟨ot, w0⟩
      · rw [hrecv] at hit
        simp [hw] at hit
      · rw [hrecv] at hit
        cases ot with
        | none => simp at hit
        | some t =>
          simp only [] at hit
          cases hb : s.taskBranch t w0 <;> rw [hb] at hit <;> simp at hit
    | crash p w2 => rw [hit] at h; simp at h

theorem workerIter_available (s : Satan) (w : World) (q : QueueRef) (cl : Bool) (t : task)
    (rest : List task) (hq : s.queue = some q)
    (hget : w.queues[q]? = some ⟨cl, t :: rest⟩) (w1 : World) :
    s.workerIter w ≠ .exit w1 := by
  have hrecv : tryRecv s.queue w =
      some (some t, { w with queues := w.queues.set q ⟨cl, rest⟩ }) := by
    simp [tryRecv, hq, hget]
  intro h
  simp only [Satan.workerIter, hrecv] at h
  cases hb : s.taskBranch t { w with queues := w.queues.set q ⟨cl, rest⟩ } <;>
    rw [hb] at h <;> simp at h

theorem queue_after_task {w w1 : World} {q : QueueRef} {cl : Bool} {t : task}
    {rest : List task} (hget : w.queues[q]? = some ⟨cl, t :: rest⟩)
    (hqs : w1.queues = w.queues.set q ⟨cl, rest⟩) : w1.queues[q]? = some ⟨cl, rest⟩ := by
  have hqlt : q < w.queues.length := by
    rcases Nat.lt_or_ge q w.queues.length with h | h
    · exact h
    · rw [List.getElem?_eq_none h] at hget; cases hget
  rw [hqs, List.getElem?_set_self hqlt]

/-- C10: in one pass of the worker loop, a task that can be received is
received and processed, whether or not the system signal has fired; when the
queue is open and no sender waits, the pass leaves the loop if the system
signal has fired and otherwise starts over with the heap unchanged; the loop
never returns while the system signal is unfired, and never in a pass in which
a task was available. -/
theorem worker_iteration (s : Satan) (w : World) :
    (∀ q cl t rest l, s.queue = some q → w.queues[q]? = some ⟨cl, t :: rest⟩ →
      s.latency = some l → l < w.stats.length →
      ∃ w1, s.workerIter w = .again w1 ∧ w1.queues[q]? = some ⟨cl, rest⟩ ∧
        actorCalls (performedSince w.trace.length w1) = [t.actor]) ∧
    (∀ q, s.queue = some q → w.queues[q]? = some ⟨false, []⟩ →
      (signalFired s.shutdown w = true → s.workerIter w = .exit w) ∧
      (signalFired s.shutdown w = false → s.workerIter w = .again w)) ∧
    (signalFired s.shutdown w = false → ∀ w1, s.workerIter w ≠ .exit w1) ∧
    (signalFired s.shutdown w = false →
      ∀ fuel i w1, s.runWorker fuel i w ≠ some (.returned w1)) ∧
    (∀ q cl t rest, s.queue = some q → w.queues[q]? = some ⟨cl, t :: rest⟩ →
      ∀ w1, s.workerIter w ≠ .exit w1) := by
  refine ⟨?_, ?_, ?_, ?_, ?_⟩
  · intro q cl t rest l hq hget hl hlt
    obtain ⟨w1, hrun, htr, -, hqs, -⟩ := workerIter_task s w q cl t rest l hq hget hl hlt
    exact ⟨w1, hrun, queue_after_task hget hqs,
      by rw [performedSince_append w w1 _ htr, actorCalls_taskEffects]⟩
  · intro q hq hget
    have hrecv : tryRecv s.queue w = none := by simp [tryRecv, hq, hget]
    constructor <;> intro hf <;> simp [Satan.workerIter, hrecv, hf]
  · intro hf w1 h
    apply workerRounds_unfired s 1 w hf w1
    simp [workerRounds, h]
  · intro hf fuel i w1 h
    have hf1 : signalFired s.shutdown (w.emit (.logWorkerStart (i + 1))) = false := by
      cases hc : s.shutdown <;> simp [signalFired, hc, World.emit] at hf ⊢
      exact hf
    have hne := workerRounds_unfired s fuel _ hf1
    simp only [Satan.runWorker, workerLoop] at h
    cases hr : workerRounds fuel s (w.emit (.logWorkerStart (i + 1))) with
    | again w2 => rw [hr] at h; simp at h
    | exit w2 => exact hne w2 hr
    | crash p w2 => rw [hr] at h; simp at h
  · intro q cl t rest hq hget w1
    exact workerIter_available s w q cl t rest hq hget w1

/-- Witness for C10: with the system signal already closed and a task of daemon
1 offered, the pass processes the task and goes on; on the coordinator without
senders the pass leaves the loop. -/
theorem worker_iteration_witness :
    signalFired busyStopping.1.shutdown busyStopping.2 = true ∧
    (∃ w1, busyStopping.1.workerIter busyStopping.2 = .again w1 ∧
      w1.queues[0]? = some ⟨false, []⟩ ∧
      actorCalls (performedSince busyStopping.2.trace.length w1) = [(okTask 1 0).actor]) ∧
    idleStopping.1.workerIter idleStopping.2 = .exit idleStopping.2 :=
  ⟨by decide,
    (worker_iteration busyStopping.1 busyStopping.2).1 0 false (okTask 1 0) [] 0
      (by decide) (by decide) (by decide) (by decide),
    ((worker_iteration idleStopping.1 idleStopping.2).2.1 0 (by decide) (by decide)).1
      (by decide)⟩

/-! ### Failing actors -/

/-- C5: for a task whose actor panics, processTask hands the panic to the
handler of the owning daemon and returns normally in every heap; the pass of the
worker loop that dequeued the task goes on to the next pass with the task gone
from the queue, and the tasks still offered are then all dequeued and their
actors invoked, each once. -/
theorem panic_contained (s : Satan) (w : World) (q : QueueRef) (cl : Bool) (t : task)
    (rest : List task) (l : StatsRef) (v : Nat)
    (hq : s.queue = some q) (hget : w.queues[q]? = some ⟨cl, t :: rest⟩)
    (hl : s.latency = some l) (hlt : l < w.stats.length)
    (hfail : t.actor.failure = some v) :
    (∀ w0, (s.processTask t w0).panic? = none ∧
      performedSince w0.trace.length (s.processTask t w0).world =
        [.callActor t.actor, .logRecovered t.daemon (.actorFailure v)] ∧
      (s.processTask t w0).world.queues = w0.queues) ∧
    (∃ w1, s.workerIter w = .again w1 ∧ w1.queues[q]? = some ⟨cl, rest⟩ ∧
      actorCalls (performedSince w.trace.length w1) = [t.actor]) ∧
    (∃ w2, workerRounds (rest.length + 1) s w = .again w2 ∧
      w2.queues[q]? = some ⟨cl, []⟩ ∧
      actorCalls (performedSince w.trace.length w2) =
        t.actor :: rest.map (fun t => t.actor)) := by
  refine ⟨?_, ?_, ?_⟩
  · intro w0
    obtain ⟨h1, h2, -, h4, -⟩ := processTask_spec s t w0
    refine ⟨h1, ?_, h4⟩
    rw [hfail] at h2
    exact performedSince_append w0 _ _ h2
  · obtain ⟨w1, hrun, htr, -, hqs, -⟩ := workerIter_task s w q cl t rest l hq hget hl hlt
    exact ⟨w1, hrun, queue_after_task hget hqs,
      by rw [performedSince_append w w1 _ htr, actorCalls_taskEffects]⟩
  · obtain ⟨w2, es, hrun, hget2, htr, hcalls, -⟩ :=
      workerRounds_drain s q l hq hl (t :: rest) w cl [] (by simpa using hget) hlt
    exact ⟨w2, hrun, hget2, by rw [performedSince_append w w2 es htr, hcalls]; rfl⟩

/-- Witness for C5: the first task offered fails; the pass goes on, and after
three passes the actors of all three tasks were invoked, the failing ones too. -/
theorem panic_contained_witness :
    (∃ w1, failingFirst.1.workerIter failingFirst.2 = .again w1 ∧
      w1.queues[0]? = some ⟨false, [okTask 2 1, badTask 1 2]⟩ ∧
      actorCalls (performedSince failingFirst.2.trace.length w1) = [(badTask 1 0).actor]) ∧
    (∃ w2, workerRounds 3 failingFirst.1 failingFirst.2 = .again w2 ∧
      w2.queues[0]? = some ⟨false, []⟩ ∧
      actorCalls (performedSince failingFirst.2.trace.length w2) =
        [(badTask 1 0).actor, (okTask 2 1).actor, (badTask 1 2).actor]) :=
  (panic_contained failingFirst.1 failingFirst.2 0 false (badTask 1 0)
    [okTask 2 1, badTask 1 2] 0 1 (by decide) (by decide) (by decide) (by decide)
    (by decide)).2

/-- C6: for every task dequeued, the queueing-latency sample is added to the
system collector before the actor is called, whatever the actor does, and it is
the only sample the system collector gains; when the actor returns, exactly one
duration sample is added to the collector of the owning daemon; when the actor
fails, no collector but the system one gains a sample.  Hence tasks whose actors
all fail give one system sample each and leave every daemon collector as it
was. -/
theorem samples_recorded (s : Satan) (w : World) (q : QueueRef)
    (hq : s.queue = some q) (hpriv : s.collectorsPrivate w) :
    (∀ cl t rest, w.queues[q]? = some ⟨cl, t :: rest⟩ → t.daemon ∈ s.daemons →
      ∃ w1 l r es, s.workerIter w = .again w1 ∧ s.latency = some l ∧
        (w.bases t.daemon).stats = some r ∧ r ≠ l ∧
        w1.trace = w.trace ++
          [.addSample l (latencySample t w), .callActor t.actor] ++ es ∧
        samplesOf w1 (some l) = samplesOf w (some l) ++ [latencySample t w] ∧
        (t.actor.failure = none → es = [.addSample r (durationSample w)] ∧
          samplesOf w1 (some r) = samplesOf w (some r) ++ [durationSample w]) ∧
        (t.actor.failure ≠ none → samplesOf w1 (some r) = samplesOf w (some r)) ∧
        (∀ k, k ≠ l → k ≠ r → samplesOf w1 (some k) = samplesOf w (some k))) ∧
    (∀ cl ts, w.queues[q]? = some ⟨cl, ts⟩ → (∀ t ∈ ts, t.daemon ∈ s.daemons) →
      (∀ t ∈ ts, t.actor.failure ≠ none) →
      ∃ w1, workerRounds ts.length s w = .again w1 ∧
        sampleCount w1 s.latency = sampleCount w s.latency + ts.length ∧
        ∀ d ∈ s.daemons, sampleCount w1 (w.bases d).stats =
          sampleCount w (w.bases d).stats) := by
  obtain ⟨hlat, hall, hne, hinj⟩ := hpriv
  obtain ⟨l, hl, hlt⟩ := collectorAllocated_some hlat
  refine ⟨?_, ?_⟩
  · intro cl t rest hget hown
    obtain ⟨r, hr, hrlt⟩ := collectorAllocated_some (hall t.daemon hown)
    have hrl : r ≠ l := fun e => hne t.daemon hown (by rw [hr, hl, e])
    have hlr : ¬ l = r := fun e => hrl e.symm
    obtain ⟨w1, hrun, htr, -, -, -, -, -, hsam⟩ :=
      workerIter_task s w q cl t rest l hq hget hl hlt
    refine ⟨w1, l, r, afterActorEffects t w, hrun, hl, hr, hrl, ?_, ?_, ?_, ?_, ?_⟩
    · rw [htr, taskEffects, List.append_assoc]
    · rw [hsam l]
      have : ¬ ((w.bases t.daemon).stats = some l) := by
        rw [hr]; exact fun e => hrl (Option.some.inj e)
      simp [taskSamples, this]
    · intro hf
      refine ⟨by simp [afterActorEffects, hf, hr, hrlt], ?_⟩
      rw [hsam r]
      simp [taskSamples, hf, hr, hrlt, hlr]
    · intro hf
      rw [hsam r]
      simp [taskSamples, hf, hlr]
    · intro k hkl hkr
      rw [hsam k]
      have h1 : ¬ l = k := fun e => hkl e.symm
      have h2 : ¬ ((w.bases t.daemon).stats = some k) := by
        rw [hr]; exact fun e => hkr (Option.some.inj e).symm
      simp [taskSamples, h1, h2]
  · intro cl ts hget hown hbad
    obtain ⟨w1, es, hrun, -, -, -, -, -, -, -, hcount⟩ :=
      workerRounds_drain s q l hq hl ts w cl [] (by simpa using hget) hlt
    have hnone : ∀ r, ts.filter (recordsDuration w r) = [] := by
      intro r
      rw [List.filter_eq_nil_iff]
      intro t ht hrec
      simp only [recordsDuration, decide_eq_true_eq] at hrec
      exact hbad t ht hrec.1
    refine ⟨w1, hrun, ?_, ?_⟩
    · rw [hl, hcount l, hnone l]; simp
    · intro d hd
      obtain ⟨r, hr, -⟩ := collectorAllocated_some (hall d hd)
      have hlr : l ≠ r := fun e => hne d hd (by rw [hr, hl, e])
      rw [hr, hcount r, hnone r]
      simp [hlr]

/-- Witness for C6: ten tasks of daemon 1 whose actors all fail give ten samples
in the system collector and none in the collector of daemon 1. -/
theorem samples_recorded_witness :
    alwaysFailing.1.collectorsPrivate alwaysFailing.2 ∧
    ∃ w1, workerRounds 10 alwaysFailing.1 alwaysFailing.2 = .again w1 ∧
      sampleCount w1 alwaysFailing.1.latency = 10 ∧
      sampleCount w1 (alwaysFailing.2.bases 1).stats = 0 := by
  refine ⟨by decide, ?_⟩
  obtain ⟨w1, h1, h2, h3⟩ := (samples_recorded alwaysFailing.1 alwaysFailing.2 0
    (by decide) (by decide)).2 false tenFailing (by decide) (by decide) (by decide)
  exact ⟨w1, h1, h2, h3 1 (by decide)⟩

/-! ### The value of the latency sample -/

theorem wrapInt64_of_inInt64 {x : Int} (h : inInt64 x) : wrapInt64 x = x := by
  obtain ⟨h1, h2⟩ := h
  unfold wrapInt64
  rw [Int.emod_eq_of_lt (by omega) (by omega)]
  omega

theorem wrapInt64_inInt64 (x : Int) : inInt64 (wrapInt64 x) := by
  unfold inInt64 wrapInt64
  have h1 := Int.emod_nonneg (x + 2 ^ 63) (b := 2 ^ 64) (by norm_num)
  have h2 := Int.emod_lt_of_pos (x + 2 ^ 63) (b := 2 ^ 64) (by norm_num)
  constructor <;> omega

theorem wrapInt64_congr (x : Int) : (wrapInt64 x - x) % 2 ^ 64 = 0 := by
  unfold wrapInt64
  omega

/-- C7 (amended): for every task dequeued, the queueing-latency sample the
worker records in the system collector is the clock reading at the dequeue
minus the createdAt of the task, both as UnixNano values, computed in int64
arithmetic: it always lies in the int64 range and is congruent to that
difference modulo 2^64.  Provided the difference fits in 64 bits, the sample is
exactly the dequeue time minus createdAt, it is at least 0 exactly when
createdAt is not later than the clock reading at the dequeue, and negative
exactly when createdAt is later. -/
theorem latency_value (s : Satan) (w : World) (q : QueueRef) (cl : Bool) (t : task)
    (rest : List task) (l : StatsRef)
    (hq : s.queue = some q) (hget : w.queues[q]? = some ⟨cl, t :: rest⟩)
    (hl : s.latency = some l) (hlt : l < w.stats.length) :
    (∃ w1 es more, s.workerIter w = .again w1 ∧
      w1.trace = w.trace ++ .addSample l (latencySample t w) :: es ∧
      samplesOf w1 (some l) = samplesOf w (some l) ++ latencySample t w :: more) ∧
    latencySample t w = wrapInt64 (wrapInt64 (w.clock w.tick) - wrapInt64 t.createdAt) ∧
    inInt64 (latencySample t w) ∧
    (latencySample t w - (UnixNano (w.clock w.tick) - UnixNano t.createdAt)) % 2 ^ 64 = 0 ∧
    (inInt64 (UnixNano (w.clock w.tick) - UnixNano t.createdAt) →
      latencySample t w = UnixNano (w.clock w.tick) - UnixNano t.createdAt ∧
      (0 ≤ latencySample t w ↔ UnixNano t.createdAt ≤ UnixNano (w.clock w.tick)) ∧
      (latencySample t w < 0 ↔ UnixNano (w.clock w.tick) < UnixNano t.createdAt)) ∧
    (inInt64 (w.clock w.tick) → inInt64 t.createdAt →
      inInt64 (w.clock w.tick - t.createdAt) →
      latencySample t w = w.clock w.tick - t.createdAt ∧
      (0 ≤ latencySample t w ↔ t.createdAt ≤ w.clock w.tick) ∧
      (latencySample t w < 0 ↔ w.clock w.tick < t.createdAt)) := by
  refine ⟨?_, rfl, wrapInt64_inInt64 _, wrapInt64_congr _, ?_, ?_⟩
  · obtain ⟨w1, hrun, htr, -, -, -, -, -, hsam⟩ :=
      workerIter_task s w q cl t rest l hq hget hl hlt
    refine ⟨w1, .callActor t.actor :: afterActorEffects t w,
      if t.actor.failure = none ∧ (w.bases t.daemon).stats = some l ∧ l < w.stats.length
        then [durationSample w] else [], hrun, ?_, ?_⟩
    · rw [htr]; rfl
    · rw [hsam l]; simp [taskSamples]
  · intro h
    have hval : latencySample t w = UnixNano (w.clock w.tick) - UnixNano t.createdAt := by
      unfold latencySample
      rw [wrapInt64_of_inInt64 h]
    refine ⟨hval, ?_, ?_⟩ <;> rw [hval] <;> omega
  · intro h1 h2 h3
    have hval : latencySample t w = w.clock w.tick - t.createdAt := by
      unfold latencySample UnixNano
      rw [wrapInt64_of_inInt64 h1, wrapInt64_of_inInt64 h2, wrapInt64_of_inInt64 h3]
    refine ⟨hval, ?_, ?_⟩ <;> rw [hval] <;> omega

/-- Witness for C7 (amended): the first task of the scenario of two daemons was
created at instant 50 and is dequeued at clock reading 100; the difference fits
in 64 bits and the sample is 50. -/
theorem latency_value_witness :
    inInt64 (UnixNano (twoProducers.2.clock twoProducers.2.tick) -
      UnixNano (okTask 1 0).createdAt) ∧
    latencySample (okTask 1 0) twoProducers.2 =
      UnixNano (twoProducers.2.clock twoProducers.2.tick) - UnixNano (okTask 1 0).createdAt ∧
    latencySample (okTask 1 0) twoProducers.2 = 100 - 50 :=
  ⟨by decide,
    ((latency_value twoProducers.1 twoProducers.2 0 false (okTask 1 0) eightTasks.tail 0
      (by decide) (by decide) (by decide) (by decide)).2.2.2.2.1 (by decide)).1,
    ((latency_value twoProducers.1 twoProducers.2 0 false (okTask 1 0) eightTasks.tail 0
      (by decide) (by decide) (by decide) (by decide)).2.2.2.2.2
      (by decide) (by decide) (by decide)).1⟩

/-- C7 fails as stated: a task whose createdAt, 200, is later than the reading
of the wall clock at its dequeue, 100, gives the system collector the sample
-100; nothing in runWorker keeps the sample from being negative. -/
theorem latency_value_counterexample :
    lateArrival.2.clock lateArrival.2.tick = 100 ∧ lateTask.createdAt = 200 ∧
    latencySample lateTask lateArrival.2 = -100 ∧
    samplesOf (lateArrival.1.workerIter lateArrival.2).world lateArrival.1.latency
      = [-100] ∧
    ¬ ∀ x ∈ samplesOf (lateArrival.1.workerIter lateArrival.2).world
      lateArrival.1.latency, 0 ≤ x := by
  decide

end satan
